import Mathlib

/-!
Verification of the teo-sql-connector specification against a shallow
embedding of the source.

Conventions of the embedding:
* Rust `String` is Lean `String`; where a proof needs induction over the
  characters, the function is defined on `List Char` (a string's `data`)
  and wrapped.
* Machine integers (`i64`, `u64`) are `Int`/`Nat`, with explicit `% 2 ^ 64`
  wrapping where Rust performs an `as u64` cast.
* `panic!`/`unwrap` failures become `Option`/`Except` error values.
* Async driver calls are modelled by explicit state passing together with a
  trace of the calls issued to the driver.
Definitions are translated from the corresponding Rust items, which are
named in the doc comments.  Items of this repository whose source file is
not available (the `stmts/select`, `stmts/insert_into`, `stmts/update` and
`schema/column` modules) are modelled from the specification and marked
`Modelled from the spec:`.
-/

/-- `SQLDialect` from `src/schema/dialect.rs`. -/
inductive SQLDialect where
  | mysql
  | postgresql
  | sqlite
  | mssql
deriving DecidableEq, Repr

/-- `SQLDialect::escape` from `src/schema/dialect.rs`: the identifier quote
string of the dialect. -/
def SQLDialect.escape : SQLDialect → String
  | .postgresql => "\""
  | _ => "`"

/-- The identifier quote character of the dialect; `SQLDialect::escape`
returns the one-character string made of it. -/
def SQLDialect.escapeChar : SQLDialect → Char
  | .postgresql => '"'
  | _ => '`'

/-- `SQLDialect::is_mysql` from `src/schema/dialect.rs`. -/
def SQLDialect.is_mysql : SQLDialect → Bool
  | .mysql => true
  | _ => false

/-- `SQLDialect::is_sqlite` from `src/schema/dialect.rs`. -/
def SQLDialect.is_sqlite : SQLDialect → Bool
  | .sqlite => true
  | _ => false

theorem SQLDialect.escape_eq_escapeChar (d : SQLDialect) :
    d.escape = String.mk [d.escapeChar] := by
  cases d <;> rfl

/-- Runtime values (`teo_teon::Value`), restricted to the constructors the
verified code paths consume: null, booleans, integers, strings, arrays and
(insertion-ordered) dictionaries.  A dictionary is its list of entries, as
in `IndexMap`. -/
inductive Value where
  | null
  | bool (b : Bool)
  | int (i : Int)
  | str (s : String)
  | array (elements : List Value)
  | dict (entries : List (String × Value))

namespace Value

mutual

def beq : Value → Value → Bool
  | .null, .null => true
  | .bool a, .bool b => a == b
  | .int a, .int b => a == b
  | .str a, .str b => a == b
  | .array a, .array b => beqList a b
  | .dict a, .dict b => beqEntries a b
  | _, _ => false

def beqList : List Value → List Value → Bool
  | [], [] => true
  | a :: as', b :: bs => beq a b && beqList as' bs
  | _, _ => false

def beqEntries : List (String × Value) → List (String × Value) → Bool
  | [], [] => true
  | (ka, va) :: as', (kb, vb) :: bs => ka == kb && beq va vb && beqEntries as' bs
  | _, _ => false

end

mutual

theorem beq_iff : ∀ a b : Value, beq a b = true ↔ a = b
  | .null, b => by cases b <;> simp [beq]
  | .bool a, b => by cases b <;> simp [beq]
  | .int a, b => by cases b <;> simp [beq]
  | .str a, b => by cases b <;> simp [beq]
  | .array a, b => by
      cases b <;> simp [beq]
      exact beqList_iff a _
  | .dict a, b => by
      cases b <;> simp [beq]
      exact beqEntries_iff a _

theorem beqList_iff : ∀ a b : List Value, beqList a b = true ↔ a = b
  | [], b => by cases b <;> simp [beqList]
  | a :: as', b => by
      cases b with
      | nil => simp [beqList]
      | cons b bs =>
        simp only [beqList, Bool.and_eq_true, List.cons.injEq]
        exact and_congr (beq_iff a b) (beqList_iff as' bs)

theorem beqEntries_iff : ∀ a b : List (String × Value), beqEntries a b = true ↔ a = b
  | [], b => by cases b <;> simp [beqEntries]
  | (ka, va) :: as', b => by
      cases b with
      | nil => simp [beqEntries]
      | cons b bs =>
        obtain ⟨kb, vb⟩ := b
        simp only [beqEntries, Bool.and_eq_true, List.cons.injEq, Prod.mk.injEq]
        rw [beq_iff va vb, beqEntries_iff as' bs, beq_iff_eq]

end

instance : DecidableEq Value := fun a b =>
  decidable_of_iff (beq a b = true) (beq_iff a b)

/-- `IndexMap::get` on a dictionary value: the value at the first entry
carrying the key, if any.  Non-dictionaries have no keys (the Rust call
sites `unwrap` the dictionary first). -/
def get (v : Value) (key : String) : Option Value :=
  match v with
  | .dict entries => entries.lookup key
  | _ => none

/-- `Value::as_dictionary`. -/
def asDict : Value → Option (List (String × Value))
  | .dict entries => some entries
  | _ => none

/-- `Value::as_array`. -/
def asArray : Value → Option (List Value)
  | .array elements => some elements
  | _ => none

/-- `Value::as_int64`. -/
def asInt64 : Value → Option Int
  | .int i => some i
  | _ => none

/-- `Value::as_str`. -/
def asStr : Value → Option String
  | .str s => some s
  | _ => none

/-- `Value::is_null`. -/
def isNull : Value → Bool
  | .null => true
  | _ => false

end Value

/-- `SQLEscape::escape` from `src/schema/value/encode.rs` (the `&str` and
`String` impls are identical): wrap the whole input in the dialect's quote
character — backtick for MySQL and the catch-all arm (SQLite, MSSQL),
double quote for PostgreSQL. -/
def SQLEscape.escape (s : String) (dialect : SQLDialect) : String :=
  match dialect with
  | .postgresql => "\"" ++ s ++ "\""
  | _ => "`" ++ s ++ "`"

/-- Rust `str::split('.')` on a character list: split at every dot,
keeping empty segments (`"".split('.')` is `[""]`). -/
def splitOnDot : List Char → List (List Char)
  | [] => [[]]
  | c :: rest =>
    match splitOnDot rest with
    | [] => [[]]
    | seg :: segs => if c = '.' then [] :: seg :: segs else (c :: seg) :: segs

theorem splitOnDot_ne_nil (s : List Char) : splitOnDot s ≠ [] := by
  cases s with
  | nil => simp [splitOnDot]
  | cons c rest =>
    simp only [splitOnDot]
    rcases h : splitOnDot rest with _ | ⟨seg, segs⟩ <;> simp
    split <;> simp

/-- `Itertools::join(".")` on character lists: interpose a dot between the
segments. -/
def joinDot : List (List Char) → List Char
  | [] => []
  | [seg] => seg
  | seg :: rest => seg ++ '.' :: joinDot rest

/-- The body of `escape_wisdom` from `src/query/mod.rs` on the character
data of the string: if the input contains the dialect's quote character it
is returned unchanged, otherwise each dot-separated segment is wrapped in
the quote character and the segments are joined back with dots. -/
def escapeWisdomChars (s : List Char) (dialect : SQLDialect) : List Char :=
  let escape := dialect.escapeChar
  if escape ∈ s then
    s
  else
    joinDot ((splitOnDot s).map (fun seg => escape :: (seg ++ [escape])))

/-- `escape_wisdom` from `src/query/mod.rs`, as a `String` function. -/
def escape_wisdom (s : String) (dialect : SQLDialect) : String :=
  ⟨escapeWisdomChars s.data dialect⟩

theorem joinDot_head (seg : List Char) (segs : List (List Char)) (c : Char) :
    (joinDot ((c :: seg) :: segs)).head? = some c := by
  cases segs <;> simp [joinDot]

theorem joinDot_getLast (segs : List (List Char)) (q : Char)
    (h : ∀ seg ∈ segs, seg.getLast? = some q) : segs ≠ [] →
    (joinDot segs).getLast? = some q := by
  induction segs with
  | nil => simp
  | cons seg rest ih =>
    intro _
    cases rest with
    | nil => simpa [joinDot] using h seg (by simp)
    | cons seg2 rest2 =>
      have tail_ne : joinDot (seg2 :: rest2) ≠ [] := by
        have := h seg2 (by simp)
        cases seg2 with
        | nil => simp at this
        | cons c cs =>
          intro hcontra
          have := joinDot_head cs rest2 c
          rw [hcontra] at this
          simp at this
      have := ih (fun s hs => h s (by simp [hs])) (by simp)
      simp only [joinDot]
      rw [List.getLast?_append_cons,
        show ('.' :: joinDot (seg2 :: rest2)) = ['.'] ++ joinDot (seg2 :: rest2) from rfl,
        List.getLast?_append_of_ne_nil _ tail_ne]
      exact this

theorem splitOnDot_cons_eq {rest : List Char} {seg0 : List Char}
    {segs0 : List (List Char)} (h : splitOnDot rest = seg0 :: segs0) (a : Char) :
    splitOnDot (a :: rest) =
      if a = '.' then [] :: seg0 :: segs0 else (a :: seg0) :: segs0 := by
  simp only [splitOnDot, h]

theorem mem_splitOnDot_subset {s : List Char} {seg : List Char}
    (hseg : seg ∈ splitOnDot s) {c : Char} (hc : c ∈ seg) : c ∈ s := by
  induction s generalizing seg with
  | nil =>
    simp [splitOnDot] at hseg
    subst hseg
    simp at hc
  | cons a rest ih =>
    rcases h : splitOnDot rest with _ | ⟨seg0, segs0⟩
    · exact absurd h (splitOnDot_ne_nil rest)
    · rw [splitOnDot_cons_eq h] at hseg
      by_cases ha : a = '.'
      · rw [if_pos ha, List.mem_cons, List.mem_cons] at hseg
        rcases hseg with rfl | rfl | hseg
        · simp at hc
        · exact List.mem_cons_of_mem a (ih (by rw [h]; exact List.mem_cons_self _ _) hc)
        · exact List.mem_cons_of_mem a
            (ih (by rw [h]; exact List.mem_cons_of_mem _ hseg) hc)
      · rw [if_neg ha, List.mem_cons] at hseg
        rcases hseg with rfl | hseg
        · rcases List.mem_cons.mp hc with rfl | hc
          · exact List.mem_cons_self _ _
          · exact List.mem_cons_of_mem a (ih (by rw [h]; exact List.mem_cons_self _ _) hc)
        · exact List.mem_cons_of_mem a
            (ih (by rw [h]; exact List.mem_cons_of_mem _ hseg) hc)

theorem mem_splitOnDot_no_dot {s : List Char} {seg : List Char}
    (hseg : seg ∈ splitOnDot s) : '.' ∉ seg := by
  induction s generalizing seg with
  | nil =>
    simp [splitOnDot] at hseg
    subst hseg
    simp
  | cons a rest ih =>
    rcases h : splitOnDot rest with _ | ⟨seg0, segs0⟩
    · exact absurd h (splitOnDot_ne_nil rest)
    · rw [splitOnDot_cons_eq h] at hseg
      by_cases ha : a = '.'
      · rw [if_pos ha, List.mem_cons, List.mem_cons] at hseg
        rcases hseg with rfl | rfl | hseg
        · simp
        · exact ih (by rw [h]; exact List.mem_cons_self _ _)
        · exact ih (by rw [h]; exact List.mem_cons_of_mem _ hseg)
      · rw [if_neg ha, List.mem_cons] at hseg
        rcases hseg with rfl | hseg
        · intro hmem
          rcases List.mem_cons.mp hmem with heq | hmem
          · exact ha heq.symm
          · exact ih (by rw [h]; exact List.mem_cons_self _ _) hmem
        · exact ih (by rw [h]; exact List.mem_cons_of_mem _ hseg)

theorem escapeWisdomChars_of_mem {s : List Char} {d : SQLDialect}
    (h : d.escapeChar ∈ s) : escapeWisdomChars s d = s := by
  simp [escapeWisdomChars, h]

theorem escapeWisdomChars_of_not_mem {s : List Char} {d : SQLDialect}
    (h : d.escapeChar ∉ s) :
    escapeWisdomChars s d =
      joinDot ((splitOnDot s).map
        (fun seg => d.escapeChar :: (seg ++ [d.escapeChar]))) := by
  simp [escapeWisdomChars, h]

theorem escapeWisdomChars_head {s : List Char} {d : SQLDialect}
    (h : d.escapeChar ∉ s) :
    (escapeWisdomChars s d).head? = some d.escapeChar := by
  rw [escapeWisdomChars_of_not_mem h]
  rcases hs : splitOnDot s with _ | ⟨seg0, segs0⟩
  · exact absurd hs (splitOnDot_ne_nil s)
  · simpa using joinDot_head (seg0 ++ [d.escapeChar])
      (segs0.map (fun seg => d.escapeChar :: (seg ++ [d.escapeChar]))) d.escapeChar

theorem escapeWisdomChars_getLast {s : List Char} {d : SQLDialect}
    (h : d.escapeChar ∉ s) :
    (escapeWisdomChars s d).getLast? = some d.escapeChar := by
  rw [escapeWisdomChars_of_not_mem h]
  apply joinDot_getLast
  · intro seg hseg
    rcases List.mem_map.mp hseg with ⟨seg0, _, rfl⟩
    rw [show (d.escapeChar :: (seg0 ++ [d.escapeChar]))
          = (d.escapeChar :: seg0) ++ [d.escapeChar] from rfl,
      List.getLast?_append_of_ne_nil _ (by simp)]
    rfl
  · simpa using splitOnDot_ne_nil s

theorem escapeWisdomChars_mem_escape {s : List Char} (d : SQLDialect) :
    d.escapeChar ∈ escapeWisdomChars s d := by
  by_cases h : d.escapeChar ∈ s
  · rwa [escapeWisdomChars_of_mem h]
  · have hd := escapeWisdomChars_head h
    rcases hl : escapeWisdomChars s d with _ | ⟨c, rest⟩
    · rw [hl] at hd; simp at hd
    · rw [hl] at hd
      simp only [List.head?_cons, Option.some.injEq] at hd
      rw [hd]
      exact List.mem_cons_self _ _

theorem escapeWisdomChars_idem (s : List Char) (d : SQLDialect) :
    escapeWisdomChars (escapeWisdomChars s d) d = escapeWisdomChars s d :=
  escapeWisdomChars_of_mem (escapeWisdomChars_mem_escape d)

/-- **C4 (counterexample).** The claim attributes dot-splitting, pass-through
of already-quoted input, and idempotence to both identifier escape
functions.  `SQLEscape::escape` (from `src/schema/value/encode.rs`) has none
of these: applying it a second time to its own output changes the string
again, an input that already contains the quote character is wrapped once
more rather than passed through, and a dotted name is wrapped whole instead
of per segment. -/
theorem C4_sqlescape_counterexample :
    SQLEscape.escape (SQLEscape.escape "a" .mysql) .mysql ≠ SQLEscape.escape "a" .mysql ∧
    SQLEscape.escape "`x`" .mysql ≠ "`x`" ∧
    SQLEscape.escape "a.b" .mysql = "`a.b`" := by
  refine ⟨?_, ?_, rfl⟩ <;> decide

/-- **C4 (amended).** The claimed properties hold of `escape_wisdom`
(`src/query/mod.rs`): for an identifier free of the dialect's quote
character the result begins and ends with the quote character and is the
dot-join of individually quoted, dot-free segments (so every dot separates
two quoted segments); an input already containing the quote character is
passed through unchanged; and a second application is the identity on the
first application's output.  `SQLEscape::escape` merely wraps the whole
input in the quote character — backtick for MySQL/SQLite, double quote for
PostgreSQL — with no dot-splitting, pass-through or idempotence. -/
theorem C4_identifier_escape_amended (d : SQLDialect) (s : String)
    (h : d.escapeChar ∉ s.data) :
    (escape_wisdom s d).data.head? = some d.escapeChar ∧
    (escape_wisdom s d).data.getLast? = some d.escapeChar ∧
    (∃ segs : List (List Char),
        (∀ seg ∈ segs, '.' ∉ seg ∧ d.escapeChar ∉ seg) ∧
        (escape_wisdom s d).data =
          joinDot (segs.map fun seg => d.escapeChar :: (seg ++ [d.escapeChar]))) ∧
    (∀ t : String, d.escapeChar ∈ t.data → escape_wisdom t d = t) ∧
    escape_wisdom (escape_wisdom s d) d = escape_wisdom s d ∧
    SQLEscape.escape s d = d.escape ++ s ++ d.escape := by
  refine ⟨escapeWisdomChars_head h, escapeWisdomChars_getLast h, ?_, ?_, ?_, ?_⟩
  · refine ⟨splitOnDot s.data, fun seg hseg => ?_, ?_⟩
    · exact ⟨mem_splitOnDot_no_dot hseg,
        fun hq => h (mem_splitOnDot_subset hseg hq)⟩
    · exact congrArg String.data
        (congrArg String.mk (escapeWisdomChars_of_not_mem h))
  · intro t ht
    exact congrArg String.mk (escapeWisdomChars_of_mem ht)
  · exact congrArg String.mk (escapeWisdomChars_idem s.data d)
  · rcases d <;> rfl

/-- Witness for `C4_identifier_escape_amended` at `d := MySQL`,
`s := "user.name"`. -/
theorem C4_identifier_escape_amended_witness :
    ('`' ∉ "user.name".data) ∧
    ((escape_wisdom "user.name" .mysql).data.head? = some '`' ∧
      (escape_wisdom "user.name" .mysql).data.getLast? = some '`' ∧
      (∃ segs : List (List Char),
          (∀ seg ∈ segs, '.' ∉ seg ∧ '`' ∉ seg) ∧
          (escape_wisdom "user.name" .mysql).data =
            joinDot (segs.map fun seg => '`' :: (seg ++ ['`']))) ∧
      (∀ t : String, '`' ∈ t.data → escape_wisdom t .mysql = t) ∧
      escape_wisdom (escape_wisdom "user.name" .mysql) .mysql
        = escape_wisdom "user.name" .mysql ∧
      SQLEscape.escape "user.name" .mysql
        = SQLDialect.escape .mysql ++ "user.name" ++ SQLDialect.escape .mysql) := by
  have h : ('`' : Char) ∉ "user.name".data := by decide
  exact ⟨h, C4_identifier_escape_amended .mysql "user.name" h⟩

/-- `Value::as_bool`. -/
def Value.asBool : Value → Option Bool
  | .bool b => some b
  | _ => none

/-- `teo_parser::r#type::Type`, restricted to the variants the verified
paths consume.  `array t opt` is `Type::Array` of an element field with
type `t` and optionality `opt`. -/
inductive Type' where
  | string
  | bool
  | int
  | int64
  | float32
  | float
  | enumVariant
  | date
  | dateTime
  | decimal
  | array (elem : Type') (elemOptional : Bool)
deriving DecidableEq, Repr

/-- `ToSQLInputDialect::to_sql_input` for strings
(`src/schema/value/encode.rs`): wrap in single quotes, escaping an inner
single quote as `\'` on MySQL and as `''` elsewhere. -/
def ToSQLInputDialect.to_sql_input (s : String) (d : SQLDialect) : String :=
  ⟨'\'' :: (s.data.flatMap fun ch =>
    if ch = '\'' then
      if d.is_mysql then ['\\', '\''] else ['\'', '\'']
    else [ch]) ++ ['\'']⟩

/-- `ToSQLInput::to_sql_input` for `bool` (`src/schema/value/encode.rs`). -/
def ToSQLInput.bool_to_sql_input (b : Bool) : String :=
  if b then "TRUE" else "FALSE"

/-- `ToWrapped::to_wrapped` (`src/schema/value/encode.rs`): parenthesise. -/
def ToWrapped.to_wrapped (s : String) : String :=
  "(" ++ s ++ ")"

/-- `WrapInArray::wrap_in_array` (`src/schema/value/encode.rs`): wrap in
`'{`…`}'` (a PostgreSQL array literal). -/
def WrapInArray.wrap_in_array (s : String) : String :=
  "'\x7b" ++ s ++ "\x7d'"

/-- `IfIMode::to_i_mode` (`src/schema/value/encode.rs`): wrap in
`LOWER(...)` when insensitive mode is on. -/
def IfIMode.to_i_mode (s : String) (iMode : Bool) : String :=
  if iMode then "LOWER(" ++ s ++ ")" else s

/-- `ToLike::to_like` (`src/schema/value/encode.rs`): splice `%` just
inside the first and last character (the surrounding quotes) of a rendered
string literal.  The Rust code indexes the first and last characters
unconditionally; inputs of fewer than two characters are a panic,
modelled as `none`. -/
def ToLike.to_like (s : String) (left right : Bool) : Option String :=
  match s.data with
  | [] => none
  | [_] => none
  | first :: rest =>
    let middle := rest.dropLast
    let last := rest.getLast? 
    last.map fun lastCh =>
      ⟨first :: ((if left then ['%'] else []) ++ middle
        ++ (if right then ['%'] else []) ++ [lastCh])⟩

/-- `ValueToSQLString::to_sql_string` (`src/schema/value/encode.rs`),
restricted to the value constructors of the embedding; variants whose
payloads are not representable here (dates, datetimes, decimals) and type
mismatches (Rust panics) are `none`. -/
def Value.to_sql_string (v : Value) (t : Type') (optional : Bool)
    (d : SQLDialect) : Option String :=
  if optional ∧ v.isNull then
    some "NULL"
  else
    match t with
    | .string => v.asStr.map (fun s => ToSQLInputDialect.to_sql_input s d)
    | .bool => v.asBool.map ToSQLInput.bool_to_sql_input
    | .int | .int64 | .float32 | .float => v.asInt64.map toString
    | .enumVariant => v.asStr.map (fun s => ToSQLInputDialect.to_sql_input s d)
    | .array elemT elemOpt =>
      v.asArray.bind fun vs =>
        (vs.mapM fun x => Value.to_sql_string x elemT elemOpt d).map
          (fun parts => WrapInArray.wrap_in_array (String.intercalate ", " parts))
    | _ => none
termination_by structural t

/-- `ValueToSQLString::to_sql_string_array_arg`
(`src/schema/value/encode.rs`): like `to_sql_string` but array elements are
joined with `","` (no space). -/
def Value.to_sql_string_array_arg (v : Value) (t : Type') (optional : Bool)
    (d : SQLDialect) : Option String :=
  if optional ∧ v.isNull then
    some "NULL"
  else
    match t with
    | .string => v.asStr.map (fun s => ToSQLInputDialect.to_sql_input s d)
    | .bool => v.asBool.map ToSQLInput.bool_to_sql_input
    | .int | .int64 | .float32 | .float => v.asInt64.map toString
    | .enumVariant => v.asStr.map (fun s => ToSQLInputDialect.to_sql_input s d)
    | .array elemT elemOpt =>
      v.asArray.bind fun vs =>
        (vs.mapM fun x => Value.to_sql_string_array_arg x elemT elemOpt d).map
          (fun parts => WrapInArray.wrap_in_array (String.intercalate "," parts))
    | _ => none
termination_by structural t

/-- `Type::as_array` on the embedded type (yields the element type and its
optionality, i.e. the element "field"). -/
def Type'.as_array : Type' → Option (Type' × Bool)
  | .array elem elemOpt => some (elem, elemOpt)
  | _ => none

/-- `Input::has_i_mode` — interface of the runtime consumed by
`where_entry_item`: whether the predicate map requests
`mode: "insensitive"`. -/
def Input.has_i_mode (map : List (String × Value)) : Bool :=
  map.lookup "mode" == some (Value.str "insensitive")

/-- `WhereClause` from `stmts/select/where`.
Modelled from the spec: the statement module `stmts/select` is not among
the available sources; §4.5 describes `AND`/`OR`/`NOT` as wrapped
combinators and the end-to-end scenario S3 shows a single entry rendered
as `(<entry>)` by `to_wrapped_string`. -/
inductive WhereClause where
  | and (items : List String)
  | or (items : List String)
  | not (item : String)

/-- Modelled from the spec: `WhereClause::to_string` joins the combined
clauses with the combinator keyword (an empty conjunction renders as the
empty string, as required by the `inner_where == ""` check in
`Query::where`). -/
def WhereClause.render : WhereClause → SQLDialect → String
  | .and items, _ => String.intercalate " AND " items
  | .or items, _ => String.intercalate " OR " items
  | .not item, _ => "NOT " ++ item

/-- Modelled from the spec: `ToWrappedSQLString::to_wrapped_string` is the
parenthesised rendering. -/
def WhereClause.to_wrapped_string (c : WhereClause) (d : SQLDialect) : String :=
  ToWrapped.to_wrapped (c.render d)

/-- `Query::where_item` from `src/query/mod.rs`. -/
def Query.where_item (lhs : String) (op : String) (rhs : String) : String :=
  lhs ++ " " ++ op ++ " " ++ rhs

/-- `Query::where_entry_array` from `src/query/mod.rs`: render each array
element and join into `lhs op (a, b, …)`. -/
def Query.where_entry_array (column_name : String) (t : Type')
    (optional : Bool) (value : Value) (op : String) (d : SQLDialect) :
    Option String :=
  value.asArray.bind fun arr =>
    (arr.mapM fun (v : Value) => v.to_sql_string t optional d).map fun parts =>
      Query.where_item column_name op (ToWrapped.to_wrapped (String.intercalate ", " parts))

mutual

/-- `Query::where_entry_item` from `src/query/mod.rs`: escape the column
name, then either render the conjunction of the operator clauses of a
predicate map (wrapped in parentheses) or, for a scalar value, render
`col = <literal>`. -/
def Query.where_entry_item (column_name : String) (t : Type') (optional : Bool)
    (value : Value) (d : SQLDialect) : Option String :=
  let column_name := escape_wisdom column_name d
  match value with
  | .dict map =>
    (Query.where_entry_ops column_name t optional map map d).map
      (fun result => (WhereClause.and result).to_wrapped_string d)
  | v =>
    (Value.to_sql_string v t optional d).map
      (fun lit => Query.where_item column_name "=" lit)
termination_by structural value

/-- The operator-dispatch loop inside `Query::where_entry_item`
(`src/query/mod.rs` lines 62–144).  `column_name` is the already-escaped
name, `fullMap` the whole predicate map (inspected by `Input::has_i_mode`);
each recognised operator contributes one clause (`mode` contributes none),
an unrecognised key is the `panic!("Unhandled key.")` arm. -/
def Query.where_entry_ops (column_name : String) (t : Type') (optional : Bool)
    (map : List (String × Value)) (fullMap : List (String × Value))
    (d : SQLDialect) : Option (List String) :=
  match map with
  | [] => some []
  | (key, v) :: rest =>
    let clauses : Option (List String) :=
      if key = "equals" then
        if v.isNull then some [Query.where_item column_name "IS" "NULL"]
        else (Value.to_sql_string v t optional d).map
          (fun lit => [Query.where_item column_name "=" lit])
      else if key = "not" then
        if v.isNull then some [Query.where_item column_name "IS NOT" "NULL"]
        else (Value.to_sql_string v t optional d).map
          (fun lit => [Query.where_item column_name "<>" lit])
      else if key = "gt" then
        (Value.to_sql_string v t false d).map
          (fun lit => [Query.where_item column_name ">" lit])
      else if key = "gte" then
        (Value.to_sql_string v t false d).map
          (fun lit => [Query.where_item column_name ">=" lit])
      else if key = "lt" then
        (Value.to_sql_string v t false d).map
          (fun lit => [Query.where_item column_name "<" lit])
      else if key = "lte" then
        (Value.to_sql_string v t false d).map
          (fun lit => [Query.where_item column_name "<=" lit])
      else if key = "in" then
        v.asArray.bind fun arr =>
          if ¬ arr.isEmpty then
            (Query.where_entry_array column_name t optional v "IN" d).map
              (fun c => [c])
          else
            some ["FALSE"]
      else if key = "notIn" then
        v.asArray.bind fun arr =>
          if ¬ arr.isEmpty then
            (Query.where_entry_array column_name t optional v "NOT IN" d).map
              (fun c => [c])
          else
            some ["TRUE"]
      else if key = "contains" then
        let iMode := Input.has_i_mode fullMap
        (Value.to_sql_string v t false d).bind fun lit =>
          (ToLike.to_like lit true true).map fun patt =>
            [Query.where_item (IfIMode.to_i_mode column_name iMode) "LIKE"
              (IfIMode.to_i_mode patt iMode)]
      else if key = "startsWith" then
        let iMode := Input.has_i_mode fullMap
        (Value.to_sql_string v t false d).bind fun lit =>
          (ToLike.to_like lit false true).map fun patt =>
            [Query.where_item (IfIMode.to_i_mode column_name iMode) "LIKE"
              (IfIMode.to_i_mode patt iMode)]
      else if key = "endsWith" then
        let iMode := Input.has_i_mode fullMap
        (Value.to_sql_string v t false d).bind fun lit =>
          (ToLike.to_like lit true false).map fun patt =>
            [Query.where_item (IfIMode.to_i_mode column_name iMode) "LIKE"
              (IfIMode.to_i_mode patt iMode)]
      else if key = "matches" then
        let iMode := Input.has_i_mode fullMap
        (Value.to_sql_string v t false d).map fun lit =>
          [Query.where_item (IfIMode.to_i_mode column_name iMode) "REGEXP"
            (IfIMode.to_i_mode lit iMode)]
      else if key = "mode" then
        some []
      else if key = "has" then
        t.as_array.bind fun et =>
          (Value.to_sql_string_array_arg v et.1 et.2 d).map fun s =>
            [Query.where_item column_name "@>" (WrapInArray.wrap_in_array s)]
      else if key = "hasEvery" then
        (Value.to_sql_string_array_arg v t false d).map fun s =>
          [Query.where_item column_name "@>" s]
      else if key = "hasSome" then
        (Value.to_sql_string_array_arg v t false d).map fun s =>
          [Query.where_item column_name "&&" s]
      else if key = "isEmpty" then
        some [Query.where_item ("ARRAY_LENGTH(" ++ column_name ++ ")") "=" "0"]
      else if key = "length" then
        (Value.to_sql_string v .int64 false d).map fun lit =>
          [Query.where_item ("ARRAY_LENGTH(" ++ column_name ++ ")") "=" lit]
      else if key = "_count" then
        (Query.where_entry_item ("COUNT(" ++ column_name ++ ")") .int64 false v d).map
          (fun c => [c])
      else if key = "_avg" then
        (Query.where_entry_item ("AVG(" ++ column_name ++ ")") .float true v d).map
          (fun c => [c])
      else if key = "_sum" then
        (Query.where_entry_item ("SUM(" ++ column_name ++ ")") .float true v d).map
          (fun c => [c])
      else if key = "_min" then
        (Query.where_entry_item ("MIN(" ++ column_name ++ ")") t optional v d).map
          (fun c => [c])
      else if key = "_max" then
        (Query.where_entry_item ("MAX(" ++ column_name ++ ")") t optional v d).map
          (fun c => [c])
      else
        none
    clauses.bind fun cs =>
      (Query.where_entry_ops column_name t optional rest fullMap d).map
        fun more => cs ++ more
termination_by structural map

end

/-- `Query::where_entry` from `src/query/mod.rs` (a direct forwarder). -/
def Query.where_entry (column_name : String) (field_type : Type')
    (optional : Bool) (value : Value) (d : SQLDialect) : Option String :=
  Query.where_entry_item column_name field_type optional value d


/-- **C3.** For a field predicate, `in` with an empty array renders the
clause `FALSE` and `notIn` with an empty array renders `TRUE` (each the
only clause of the parenthesised conjunction `where_entry_item` returns);
with a non-empty array whose elements all encode, they render
`col IN (…)` / `col NOT IN (…)` over the element-wise encoded literals,
`col` being the escaped column name. -/
theorem C3_empty_set_predicates (column_name : String) (t : Type')
    (optional : Bool) (d : SQLDialect) (arr : List Value) :
    (Query.where_entry_item column_name t optional
        (.dict [("in", .array [])]) d
      = some (ToWrapped.to_wrapped "FALSE")) ∧
    (Query.where_entry_item column_name t optional
        (.dict [("notIn", .array [])]) d
      = some (ToWrapped.to_wrapped "TRUE")) ∧
    (∀ parts : List String, arr ≠ [] →
      ((arr.mapM fun (v : Value) => v.to_sql_string t optional d) = some parts) →
      (Query.where_entry_item column_name t optional
          (.dict [("in", .array arr)]) d
        = some (ToWrapped.to_wrapped (Query.where_item (escape_wisdom column_name d)
            "IN" (ToWrapped.to_wrapped (String.intercalate ", " parts))))) ∧
      (Query.where_entry_item column_name t optional
          (.dict [("notIn", .array arr)]) d
        = some (ToWrapped.to_wrapped (Query.where_item (escape_wisdom column_name d)
            "NOT IN" (ToWrapped.to_wrapped (String.intercalate ", " parts)))))) := by
  refine ⟨rfl, rfl, ?_⟩
  intro parts harr hparts
  obtain ⟨a, as', rfl⟩ := List.exists_cons_of_ne_nil harr
  have hwIn : Query.where_entry_array (escape_wisdom column_name d) t optional
      (.array (a :: as')) "IN" d
      = some (Query.where_item (escape_wisdom column_name d) "IN"
        (ToWrapped.to_wrapped (String.intercalate ", " parts))) := by
    show (((a :: as').mapM fun (v : Value) => v.to_sql_string t optional d).map
      fun ps => Query.where_item (escape_wisdom column_name d) "IN"
        (ToWrapped.to_wrapped (String.intercalate ", " ps))) = _
    rw [hparts]
    rfl
  have hwNotIn : Query.where_entry_array (escape_wisdom column_name d) t optional
      (.array (a :: as')) "NOT IN" d
      = some (Query.where_item (escape_wisdom column_name d) "NOT IN"
        (ToWrapped.to_wrapped (String.intercalate ", " parts))) := by
    show (((a :: as').mapM fun (v : Value) => v.to_sql_string t optional d).map
      fun ps => Query.where_item (escape_wisdom column_name d) "NOT IN"
        (ToWrapped.to_wrapped (String.intercalate ", " ps))) = _
    rw [hparts]
    rfl
  constructor
  · show (((Query.where_entry_array (escape_wisdom column_name d) t optional
        (.array (a :: as')) "IN" d).map (fun c => [c])).bind fun cs =>
          (some ([] : List String)).map fun more => cs ++ more).map
        (fun result => (WhereClause.and result).to_wrapped_string d) = _
    rw [hwIn]
    rfl
  · show (((Query.where_entry_array (escape_wisdom column_name d) t optional
        (.array (a :: as')) "NOT IN" d).map (fun c => [c])).bind fun cs =>
          (some ([] : List String)).map fun more => cs ++ more).map
        (fun result => (WhereClause.and result).to_wrapped_string d) = _
    rw [hwNotIn]
    rfl

/-- Witness for `C3_empty_set_predicates` at `column_name := "age"`,
`t := Int`, `d := MySQL`, `arr := [1, 2]`. -/
theorem C3_empty_set_predicates_witness :
    (Query.where_entry_item "age" .int false
        (.dict [("in", .array [Value.int 1, Value.int 2])]) .mysql
      = some (ToWrapped.to_wrapped (Query.where_item (escape_wisdom "age" .mysql)
          "IN" (ToWrapped.to_wrapped (String.intercalate ", " ["1", "2"]))))) ∧
    (Query.where_entry_item "age" .int false
        (.dict [("notIn", .array [Value.int 1, Value.int 2])]) .mysql
      = some (ToWrapped.to_wrapped (Query.where_item (escape_wisdom "age" .mysql)
          "NOT IN" (ToWrapped.to_wrapped (String.intercalate ", " ["1", "2"]))))) :=
  (C3_empty_set_predicates "age" .int false .mysql [Value.int 1, Value.int 2]).2.2
    ["1", "2"] (by decide) (by decide)

/-- A `u64` cast of an `i64` value (`as u64` / `as usize` on a 64-bit
target): wrap modulo `2^64`. -/
def u64ofInt (i : Int) : Nat :=
  (i % (2 : Int) ^ 64).toNat

/-- `IndexMap::remove` on a dictionary's entry list: drop the entry with
the key (the key occurs at most once in a well-formed map), keeping the
order of the remaining entries. -/
def dictRemove (entries : List (String × Value)) (key : String) :
    List (String × Value) :=
  entries.filter fun p => p.1 != key

/-- `IndexMap::insert` on a dictionary's entry list: replace the value in
place when the key is present, append the entry otherwise. -/
def dictInsert (entries : List (String × Value)) (key : String) (v : Value) :
    List (String × Value) :=
  if (entries.lookup key).isSome then
    entries.map fun p => if p.1 = key then (p.1, v) else p
  else
    entries ++ [(key, v)]

/-- `object.as_dictionary_mut().unwrap().insert(key, v)` on a value known
to be a dictionary at every call site. -/
def Value.insert (value : Value) (key : String) (v : Value) : Option Value :=
  match value with
  | .dict entries => some (.dict (dictInsert entries key v))
  | _ => none

/-- `result.as_dictionary_mut().unwrap().get_mut(key).unwrap()
.as_array_mut().unwrap()` followed by `insert(0, item)` (`atFront`) or
`push(item)`: append the item to the array stored at `key`.  `none` models
the source's `unwrap` panics (key missing or value not an array). -/
def Value.pushAt (value : Value) (key : String) (item : Value)
    (atFront : Bool) : Option Value :=
  match value with
  | .dict entries =>
    match entries.lookup key with
    | some (.array xs) =>
      some (.dict (dictInsert entries key
        (.array (if atFront then item :: xs else xs ++ [item]))))
    | _ => none
  | _ => none

/-- `Execution::sub_hashmap` from `src/execution/mod.rs`: the projection of
a row onto the distinct keys, each missing key mapped to `Null`.  The Rust
function returns a `HashMap` keyed exactly by `keys`; two such maps are
equal iff these key-ordered entry lists are equal. -/
def Execution.sub_hashmap (value : Value) (keys : List String) :
    List (String × Value) :=
  keys.map fun key => (key, (value.get key).getD Value.null)

/-- `array_tool::vec::Uniq::unique_via` as used by `query_internal`: drop
every element equivalent (under `eqv`) to an earlier one, keeping first
occurrences; `seen` accumulates the kept elements. -/
def Execution.unique_via_seen (eqv : Value → Value → Bool) (seen : List Value) :
    List Value → List Value
  | [] => []
  | x :: xs =>
    if seen.any fun y => eqv y x then
      Execution.unique_via_seen eqv seen xs
    else
      x :: Execution.unique_via_seen eqv (seen ++ [x]) xs

/-- `results.unique_via(...)` (first occurrences kept). -/
def Execution.unique_via (eqv : Value → Value → Bool) (l : List Value) :
    List Value :=
  Execution.unique_via_seen eqv [] l

/-- The in-memory paging filter of `query_internal`
(`src/execution/mod.rs` lines 147-149): `enumerate`, keep indices in
`[skip, skip + take)`, drop the indices again. -/
def Execution.in_memory_slice (skip take : Nat) (results : List Value) :
    List Value :=
  (results.enum.filter fun p => decide (skip ≤ p.1 ∧ p.1 < skip + take)).map
    Prod.snd

/-- `Input::has_negative_take` — interface of the runtime consumed by
`query_internal`: whether the finder's `take` is a negative integer. -/
def Input.has_negative_take (value : Value) : Bool :=
  (((value.get "take").bind Value.asInt64).map fun t => decide (t < 0)).getD false

/-- The `original_distinct` computation of `query_internal`
(`src/execution/mod.rs` line 111): the `distinct` argument's array, an
empty array counting as absent; a non-array value is the source's `unwrap`
panic (outer `none`). -/
def Execution.original_distinct (value : Value) : Option (Option (List Value)) :=
  match value.get "distinct" with
  | none => some none
  | some v =>
    match v.asArray with
    | none => none
    | some arr => some (if arr.isEmpty then none else some arr)

/-- `Execution::merge_distinct` from `src/execution/mod.rs`: concatenate
the distinct names from the finder (each entry `as_str().unwrap()`ed — a
non-string is the panic, outer `none`) with the additional join-table
names; an empty result is `None`. -/
def Execution.merge_distinct (value1 : Option (List Value))
    (value2 : Option (List String)) : Option (Option (List String)) :=
  match (match value1 with
         | some v1 => v1.mapM Value.asStr
         | none => some []) with
  | none => none
  | some fromV1 =>
    let result := fromV1 ++ (match value2 with | some v2 => v2 | none => [])
    some (if result.isEmpty then none else some result)

/-- `Execution::without_paging_and_skip_take` from `src/execution/mod.rs`:
remove `take`, `skip`, `pageSize` and `pageNumber` from the finder when any
of them is present. -/
def Execution.without_paging_and_skip_take (value : Value) : Option Value :=
  match value.asDict with
  | none => none
  | some map =>
    if (map.lookup "take").isSome ∨ (map.lookup "skip").isSome ∨
        (map.lookup "pageSize").isSome ∨ (map.lookup "pageNumber").isSome then
      some (.dict (dictRemove (dictRemove (dictRemove (dictRemove map
        "take") "skip") "pageSize") "pageNumber"))
    else
      some value

/-- `Execution::without_paging_and_skip_take_distinct` from
`src/execution/mod.rs`: as above but also removing `distinct`. -/
def Execution.without_paging_and_skip_take_distinct (value : Value) :
    Option Value :=
  match value.asDict with
  | none => none
  | some map =>
    if (map.lookup "take").isSome ∨ (map.lookup "skip").isSome ∨
        (map.lookup "pageSize").isSome ∨ (map.lookup "pageNumber").isSome then
      some (.dict (dictRemove (dictRemove (dictRemove (dictRemove (dictRemove
        map "take") "skip") "pageSize") "pageNumber") "distinct"))
    else
      some value

/-- The decoded-row post-processing of `Execution::query_internal`
(`src/execution/mod.rs` lines 108-153) as a function of the decoded row
list (the driver call and row decoding abstracted into `rows`): compute the
merged distinct key set, reverse under negative take, keep first
occurrences per distinct tuple, and — when distinct was requested together
with `skip`/`take` — apply skip/take in memory (this is the case in which
`query_internal` strips them from the builder input), reversing again under
negative take.  `none` models the source's `unwrap` panics. -/
def Execution.query_internal_post (value : Value)
    (additional_distinct : Option (List String)) (rows : List Value) :
    Option (List Value) :=
  match Execution.original_distinct value with
  | none => none
  | some od =>
  match Execution.merge_distinct od additional_distinct with
  | none => none
  | some distinct =>
  let skip := value.get "skip"
  let take := value.get "take"
  let should_in_memory_take_skip :=
    distinct.isSome && (skip.isSome || take.isSome)
  let reverse := Input.has_negative_take value
  let results := if reverse then rows.reverse else rows
  let results :=
    match distinct with
    | some distinct_keys =>
      Execution.unique_via (fun a b =>
        decide (Execution.sub_hashmap a distinct_keys
          = Execution.sub_hashmap b distinct_keys)) results
    | none => results
  if should_in_memory_take_skip then
    match (match skip with | none => some 0 | some v => v.asInt64),
        (match take with | none => some 0 | some v => v.asInt64.map Int.natAbs) with
    | some skipI, some takeN =>
      let results := Execution.in_memory_slice (u64ofInt skipI) takeN results
      some (if reverse then results.reverse else results)
    | _, _ => none
  else
    some results

theorem enumFrom_filter_window (l : List Value) :
    ∀ n skip take : Nat,
      ((l.enumFrom n).filter fun p => decide (skip ≤ p.1 ∧ p.1 < skip + take)).map
          Prod.snd
        = (l.drop (skip - n)).take (skip + take - max n skip) := by
  induction l with
  | nil => intro n skip take; simp
  | cons x xs ih =>
    intro n skip take
    show ((((n, x) :: xs.enumFrom (n + 1)).filter
        fun p => decide (skip ≤ p.1 ∧ p.1 < skip + take)).map Prod.snd) = _
    rw [List.filter_cons]
    by_cases hc : skip ≤ n ∧ n < skip + take
    · rw [if_pos (by simpa using hc)]
      rw [List.map_cons, ih (n + 1) skip take]
      have h1 : skip - n = 0 := by omega
      have h2 : skip - (n + 1) = 0 := by omega
      have h3 : skip + take - max n skip = (skip + take - max (n + 1) skip) + 1 := by
        omega
      rw [h1, h2, h3]
      simp [List.take_succ_cons]
    · rw [if_neg (by simpa using hc)]
      rw [ih (n + 1) skip take]
      rcases Nat.lt_or_ge n skip with hlt | hge
      · have h1 : skip - n = (skip - (n + 1)) + 1 := by omega
        have h2 : skip + take - max n skip = skip + take - max (n + 1) skip := by
          omega
        rw [h1, h2, List.drop_succ_cons]
      · have hge2 : skip + take ≤ n := by omega
        have h1 : skip - n = 0 := by omega
        have h2 : skip - (n + 1) = 0 := by omega
        have h3 : skip + take - max n skip = 0 := by omega
        have h4 : skip + take - max (n + 1) skip = 0 := by omega
        rw [h1, h2, h3, h4]
        simp

theorem in_memory_slice_eq_drop_take (skip take : Nat) (l : List Value) :
    Execution.in_memory_slice skip take l = (l.drop skip).take take := by
  show ((l.enumFrom 0).filter fun p => decide (skip ≤ p.1 ∧ p.1 < skip + take)).map
      Prod.snd = _
  rw [enumFrom_filter_window l 0 skip take]
  simp

theorem mapM_asStr_ne_nil {l : List Value} {l' : List String}
    (h : l.mapM Value.asStr = some l') (hne : l ≠ []) : l' ≠ [] := by
  rcases l with _ | ⟨a, rest⟩
  · exact absurd rfl hne
  · rw [List.mapM_cons] at h
    rcases ha : a.asStr with _ | s <;> rw [ha] at h
    · simp at h
    · rcases hr : rest.mapM Value.asStr with _ | bs <;> rw [hr] at h
      · simp at h
      · simp at h
        subst h
        simp

theorem u64ofInt_eq_toNat {i : Int} (h0 : 0 ≤ i) (h1 : i < 2 ^ 64) :
    u64ofInt i = i.toNat := by
  unfold u64ofInt
  rw [Int.emod_eq_of_lt h0 h1]

/-- **C1 (counterexample).** A find query with `distinct` and `skip` but no
`take` returns the empty list: the in-memory trim uses `take = 0` when
`take` is absent (`unwrap_or(0)` at `src/execution/mod.rs` line 146), so
the result is not `distinct(full)[skip..]` — here `distinct(full)` has two
rows and `skip = 1`, so the claimed result is the one-row suffix, yet the
code returns `[]`. -/
theorem C1_distinct_paging_counterexample :
    Execution.query_internal_post
        (.dict [("distinct", .array [.str "k"]), ("skip", .int 1)]) none
        [.dict [("k", .int 1)], .dict [("k", .int 2)]]
      = some [] ∧
    ((Execution.unique_via
        (fun a b => decide (Execution.sub_hashmap a ["k"]
          = Execution.sub_hashmap b ["k"]))
        [.dict [("k", .int 1)], .dict [("k", .int 2)]]).drop 1
      = [.dict [("k", .int 2)]]) := by
  constructor <;> decide

theorem lookup_dictRemove (l : List (String × Value)) (k k' : String) :
    (dictRemove l k).lookup k' = if k' = k then none else l.lookup k' := by
  induction l with
  | nil => simp [dictRemove]
  | cons p rest ih =>
    obtain ⟨a, v⟩ := p
    by_cases hak : a = k
    · subst hak
      rw [show dictRemove ((a, v) :: rest) a = dictRemove rest a by
        simp [dictRemove]]
      rw [ih]
      by_cases hk : k' = a
      · simp [hk]
      · simp [hk, List.lookup, beq_false_of_ne hk]
    · rw [show dictRemove ((a, v) :: rest) k = (a, v) :: dictRemove rest k by
        simp [dictRemove, bne_iff_ne, hak]]
      by_cases hk : k' = a
      · subst hk
        simp [List.lookup, if_neg hak]
      · rw [List.lookup, List.lookup, beq_false_of_ne hk, ih]

/-- **C1 (amended).** For a find query requesting `distinct` together with
`take` (and possibly `skip`), `query_internal` strips
`skip`/`take`/`pageSize`/`pageNumber` from the SQL builder input, applies
the distinct first-occurrence filter in memory and only then trims by
`skip`/`take`, so the result is
`distinct(full)[skip .. skip+|take|]` — where under a negative `take` the
decoded rows are reversed before the distinct filter and the trimmed list
is reversed back afterwards.  (When `take` is absent the in-memory trim
uses `take = 0` and the result is empty, per the counterexample.) -/
theorem C1_distinct_paging_amended (value : Value) (rows : List Value)
    (dvs : List Value) (dk : List String) (t : Int) (skipOpt : Option Int)
    (hd : value.get "distinct" = some (.array dvs)) (hdne : dvs ≠ [])
    (hdk : dvs.mapM Value.asStr = some dk)
    (ht : value.get "take" = some (.int t))
    (hs : value.get "skip" = skipOpt.map Value.int)
    (hs0 : 0 ≤ skipOpt.getD 0) (hsub : skipOpt.getD 0 < 2 ^ 64) :
    (Execution.query_internal_post value none rows
      = some (if t < 0 then
          (((Execution.unique_via (fun a b =>
              decide (Execution.sub_hashmap a dk = Execution.sub_hashmap b dk))
            rows.reverse).drop (skipOpt.getD 0).toNat).take t.natAbs).reverse
        else
          ((Execution.unique_via (fun a b =>
              decide (Execution.sub_hashmap a dk = Execution.sub_hashmap b dk))
            rows).drop (skipOpt.getD 0).toNat).take t.natAbs)) ∧
    (∃ stripped, Execution.without_paging_and_skip_take value = some stripped ∧
      stripped.get "take" = none ∧ stripped.get "skip" = none ∧
      stripped.get "pageSize" = none ∧ stripped.get "pageNumber" = none) := by
  obtain ⟨d0, drest, rfl⟩ := List.exists_cons_of_ne_nil hdne
  have hdkne : dk ≠ [] := mapM_asStr_ne_nil hdk hdne
  obtain ⟨k0, krest, rfl⟩ := List.exists_cons_of_ne_nil hdkne
  constructor
  · have hod : Execution.original_distinct value = some (some (d0 :: drest)) := by
      simp [Execution.original_distinct, hd, Value.asArray]
    have hmd : Execution.merge_distinct (some (d0 :: drest)) none
        = some (some (k0 :: krest)) := by
      show (match (d0 :: drest).mapM Value.asStr with
            | none => none
            | some fromV1 =>
              some (if (fromV1 ++ []).isEmpty then none
                else some (fromV1 ++ []))) = _
      rw [hdk]
      simp
    have hneg : Input.has_negative_take value = decide (t < 0) := by
      simp [Input.has_negative_take, ht, Value.asInt64]
    simp only [Execution.query_internal_post, hod, hmd, hneg, ht, hs]
    rcases skipOpt with _ | sk
    · simp only [Option.map_none, Option.getD_none] at *
      by_cases ht0 : t < 0 <;>
        simp [ht0, Value.asInt64, in_memory_slice_eq_drop_take,
          u64ofInt_eq_toNat hs0 hsub]
    · simp only [Option.map_some', Option.getD_some] at *
      by_cases ht0 : t < 0 <;>
        simp [ht0, Value.asInt64, in_memory_slice_eq_drop_take,
          u64ofInt_eq_toNat hs0 hsub]
  · rcases value with _ | _ | _ | _ | _ | entries <;> simp [Value.get] at hd ht ⊢
    have hcond : ((entries.lookup "take").isSome ∨
        (entries.lookup "skip").isSome ∨ (entries.lookup "pageSize").isSome ∨
        (entries.lookup "pageNumber").isSome) := by
      left
      rw [ht]
      rfl
    refine ⟨.dict (dictRemove (dictRemove (dictRemove (dictRemove entries
      "take") "skip") "pageSize") "pageNumber"), ?_, ?_, ?_, ?_, ?_⟩
    · simp [Execution.without_paging_and_skip_take, Value.asDict, if_pos hcond]
    all_goals
      simp only [Value.get, lookup_dictRemove]
      rfl

/-- Witness for `C1_distinct_paging_amended`: `distinct: ["k"]`,
`skip: 1`, `take: 2` over one decoded row. -/
theorem C1_distinct_paging_amended_witness :
    ((Value.dict [("distinct", Value.array [Value.str "k"]),
        ("skip", Value.int 1), ("take", Value.int 2)]).get "take"
      = some (Value.int 2)) ∧
    ((Execution.query_internal_post
        (Value.dict [("distinct", Value.array [Value.str "k"]),
          ("skip", Value.int 1), ("take", Value.int 2)]) none
        [Value.dict [("k", Value.int 1)]]
      = some (if (2 : Int) < 0 then
          (((Execution.unique_via (fun a b =>
              decide (Execution.sub_hashmap a ["k"]
                = Execution.sub_hashmap b ["k"]))
            [Value.dict [("k", Value.int 1)]].reverse).drop
              ((some (1 : Int)).getD 0).toNat).take (2 : Int).natAbs).reverse
        else
          ((Execution.unique_via (fun a b =>
              decide (Execution.sub_hashmap a ["k"]
                = Execution.sub_hashmap b ["k"]))
            [Value.dict [("k", Value.int 1)]]).drop
              ((some (1 : Int)).getD 0).toNat).take (2 : Int).natAbs)) ∧
      (∃ stripped,
        Execution.without_paging_and_skip_take
            (Value.dict [("distinct", Value.array [Value.str "k"]),
              ("skip", Value.int 1), ("take", Value.int 2)])
          = some stripped ∧
        stripped.get "take" = none ∧ stripped.get "skip" = none ∧
        stripped.get "pageSize" = none ∧ stripped.get "pageNumber" = none)) :=
  ⟨by decide,
    C1_distinct_paging_amended
      (Value.dict [("distinct", Value.array [Value.str "k"]),
        ("skip", Value.int 1), ("take", Value.int 2)])
      [Value.dict [("k", Value.int 1)]]
      [Value.str "k"] ["k"] 2 (some 1)
      (by decide) (by decide) (by decide) (by decide) (by decide)
      (by decide) (by decide)⟩

/-- The slice of the runtime `Relation` interface the include splicing
consumes: the relation's name, its `(field, reference)` pairs
(`relation.iter()`), and whether it is to-many (`relation.is_vec()`). -/
structure RelationInfo where
  name : String
  pairs : List (String × String)
  isVec : Bool

/-- The match test of the direct-relation include loop
(`src/execution/mod.rs` lines 198-208): a fetched row belongs to a parent
iff for every `(field, reference)` pair the parent's `field` equals the
row's `reference` and the two are not both absent. -/
def Execution.include_matched (rel : RelationInfo) (result included : Value) :
    Bool :=
  rel.pairs.all fun p =>
    !((included.get p.2).isNone && (result.get p.1).isNone) &&
      (included.get p.2 == result.get p.1)

/-- The per-parent bucketing loop of the direct-relation include
(`src/execution/mod.rs` lines 197-227): walk the fetched rows; a matching
row is appended to the array under the relation name (inserted at the
front under negative take) once `skip` rows have been skipped and while
fewer than `|take|` rows have been taken; the loop breaks once `|take|`
rows are taken.  `none` models the source's `unwrap` panics. -/
def Execution.splice_loop (rel : RelationInfo) (skip take : Option Int)
    (negative_take : Bool) :
    Value → List Value → Int → Nat → Option Value
  | result, [], _, _ => some result
  | result, iv :: rest, skipped, taken =>
    if Execution.include_matched rel result iv then
      if (skip.isNone || decide (skip.getD 0 ≤ skipped)) &&
          (take.isNone || decide (taken < (take.getD 0).natAbs)) then
        match (if (result.get rel.name).isNone then
            result.insert rel.name (.array [])
          else
            some result) with
        | none => none
        | some result =>
          match result.pushAt rel.name iv negative_take with
          | none => none
          | some result =>
            if take.isSome && decide (taken + 1 ≥ (take.getD 0).natAbs) then
              some result
            else
              Execution.splice_loop rel skip take negative_take result rest
                skipped (taken + 1)
      else
        Execution.splice_loop rel skip take negative_take result rest
          (skipped + 1) taken
    else
      Execution.splice_loop rel skip take negative_take result rest skipped taken

/-- The per-parent direct-relation include step of `query_internal`
(`src/execution/mod.rs` lines 191-228): to-many parents receive an empty
array under the relation name up front, then the fetched rows are bucketed
by `splice_loop`.  `negative_take` is `take.map(is_negative).unwrap_or(false)`
(line 159). -/
def Execution.splice_direct_one (rel : RelationInfo) (skip take : Option Int)
    (result : Value) (included : List Value) : Option Value :=
  let negative_take := (take.map fun t => decide (t < 0)).getD false
  match (if rel.isVec then result.insert rel.name (.array []) else some result) with
  | none => none
  | some result =>
    Execution.splice_loop rel skip take negative_take result included 0 0

/-- The direct-relation include over all parents
(`for result in results.iter_mut()`). -/
def Execution.splice_direct (rel : RelationInfo) (skip take : Option Int)
    (results included : List Value) : Option (List Value) :=
  results.mapM fun r => Execution.splice_direct_one rel skip take r included

theorem lookup_append_of_none {α : Type} [DecidableEq α] {β : Type}
    (l1 l2 : List (α × β)) (k : α) (h : l1.lookup k = none) :
    (l1 ++ l2).lookup k = l2.lookup k := by
  induction l1 with
  | nil => simp
  | cons p rest ih =>
    obtain ⟨a, v⟩ := p
    by_cases hak : k = a
    · subst hak
      simp [List.lookup_cons] at h
    · simp only [List.cons_append, List.lookup_cons, beq_false_of_ne hak] at h ⊢
      exact ih h

theorem lookup_map_replace (entries : List (String × Value)) (k : String)
    (v : Value) (f : String) (h : f ≠ k) :
    (entries.map fun p => if p.1 = k then (p.1, v) else p).lookup f
      = entries.lookup f := by
  induction entries with
  | nil => rfl
  | cons p rest ih =>
    obtain ⟨a, w⟩ := p
    by_cases hak : a = k
    · subst hak
      rw [List.map_cons,
        show (if (a, w).1 = a then ((a, w).1, v) else (a, w)) = (a, v) from by
          simp]
      simp only [List.lookup_cons, beq_false_of_ne h]
      exact ih
    · rw [List.map_cons,
        show (if (a, w).1 = k then ((a, w).1, v) else (a, w)) = (a, w) from by
          simp [hak]]
      simp only [List.lookup_cons]
      cases hfa : (f == a)
      · exact ih
      · rfl

theorem lookup_dictInsert_self (entries : List (String × Value)) (k : String)
    (v : Value) : (dictInsert entries k v).lookup k = some v := by
  unfold dictInsert
  by_cases h : (entries.lookup k).isSome
  · rw [if_pos h]
    induction entries with
    | nil => simp at h
    | cons p rest ih =>
      obtain ⟨a, w⟩ := p
      by_cases hak : a = k
      · subst hak
        rw [List.map_cons,
          show (if (a, w).1 = a then ((a, w).1, v) else (a, w)) = (a, v) from by
            simp]
        simp [List.lookup_cons]
      · rw [List.map_cons,
          show (if (a, w).1 = k then ((a, w).1, v) else (a, w)) = (a, w) from by
            simp [hak]]
        simp only [List.lookup_cons, beq_false_of_ne (fun he => hak he.symm)] at h ⊢
        exact ih h
  · rw [if_neg h]
    rw [lookup_append_of_none _ _ _ (by
      rcases h2 : entries.lookup k with _ | _
      · rfl
      · rw [h2] at h; simp at h)]
    simp [List.lookup_cons]

theorem lookup_dictInsert_ne (entries : List (String × Value)) (k : String)
    (v : Value) (f : String) (h : f ≠ k) :
    (dictInsert entries k v).lookup f = entries.lookup f := by
  unfold dictInsert
  by_cases hs : (entries.lookup k).isSome
  · rw [if_pos hs]
    exact lookup_map_replace entries k v f h
  · rw [if_neg hs]
    induction entries with
    | nil => simp [List.lookup_cons, beq_false_of_ne h]
    | cons p rest ih =>
      obtain ⟨a, w⟩ := p
      have hs' : ¬(rest.lookup k).isSome := by
        intro hsome
        apply hs
        simp only [List.lookup_cons]
        cases hka : (k == a)
        · exact hsome
        · simp
      simp only [List.cons_append, List.lookup_cons]
      cases hfa : (f == a)
      · exact ih hs'
      · rfl

theorem splice_loop_preserves (rel : RelationInfo) (negT : Bool)
    (included : List Value) :
    ∀ (entries : List (String × Value)) (xs : List Value) (skipped : Int)
      (taken : Nat),
      entries.lookup rel.name = some (.array xs) →
      ∃ entries' xs',
        Execution.splice_loop rel none none negT (.dict entries) included
            skipped taken
          = some (.dict entries') ∧
        entries'.lookup rel.name = some (.array xs') ∧
        (∀ f, f ≠ rel.name → entries'.lookup f = entries.lookup f) := by
  induction included with
  | nil =>
    intro entries xs skipped taken hx
    exact ⟨entries, xs, rfl, hx, fun f _ => rfl⟩
  | cons iv rest ih =>
    intro entries xs skipped taken hx
    by_cases hm : Execution.include_matched rel (.dict entries) iv
    · have step : Execution.splice_loop rel none none negT (.dict entries)
          (iv :: rest) skipped taken
          = Execution.splice_loop rel none none negT
            (.dict (dictInsert entries rel.name
              (.array (if negT then iv :: xs else xs ++ [iv])))) rest skipped
            (taken + 1) := by
        simp only [Execution.splice_loop, hm, if_true, Value.get, hx,
          Value.pushAt, Option.isNone_none, Bool.true_or, Bool.and_self,
          Option.isNone_some, Bool.false_and, Option.isSome_none,
          Bool.false_eq_true, if_false, decide_True, decide_False]
      rw [step]
      obtain ⟨entries', xs', hloop, hx', hpres⟩ :=
        ih (dictInsert entries rel.name
          (.array (if negT then iv :: xs else xs ++ [iv])))
          (if negT then iv :: xs else xs ++ [iv]) skipped (taken + 1)
          (lookup_dictInsert_self _ _ _)
      refine ⟨entries', xs', hloop, hx', fun f hf => ?_⟩
      rw [hpres f hf, lookup_dictInsert_ne _ _ _ _ hf]
    · have step : Execution.splice_loop rel none none negT (.dict entries)
          (iv :: rest) skipped taken
          = Execution.splice_loop rel none none negT (.dict entries) rest
            skipped taken := by
        simp only [Execution.splice_loop, hm, if_false, Bool.false_eq_true]
      rw [step]
      exact ih entries xs skipped taken hx

theorem splice_loop_absent (rel : RelationInfo) (negT : Bool)
    (included : List Value) :
    ∀ (entries : List (String × Value)) (skipped : Int) (taken : Nat),
      entries.lookup rel.name = none →
      ∃ entries',
        Execution.splice_loop rel none none negT (.dict entries) included
            skipped taken
          = some (.dict entries') ∧
        ((entries'.lookup rel.name).isSome ↔
          ∃ iv ∈ included, Execution.include_matched rel (.dict entries) iv) ∧
        (∀ f, f ≠ rel.name → entries'.lookup f = entries.lookup f) ∧
        (∀ v, entries'.lookup rel.name = some v → ∃ ys, v = .array ys) := by
  induction included with
  | nil =>
    intro entries skipped taken hx
    refine ⟨entries, rfl, ?_, fun f _ => rfl, ?_⟩
    · simp [hx]
    · intro v hv
      rw [hx] at hv
      exact absurd hv (by simp)
  | cons iv rest ih =>
    intro entries skipped taken hx
    by_cases hm : Execution.include_matched rel (.dict entries) iv
    · have step : Execution.splice_loop rel none none negT (.dict entries)
          (iv :: rest) skipped taken
          = Execution.splice_loop rel none none negT
            (.dict (dictInsert (dictInsert entries rel.name (.array []))
              rel.name (.array [iv]))) rest skipped (taken + 1) := by
        simp only [Execution.splice_loop, hm, if_true, Value.get, hx,
          Value.insert, Value.pushAt, lookup_dictInsert_self,
          Option.isNone_none, Bool.true_or, Bool.and_self, if_true,
          Option.isSome_none, Bool.false_and, Bool.false_eq_true, if_false]
        cases negT <;> rfl
      rw [step]
      obtain ⟨entries', xs', hloop, hx', hpres⟩ :=
        splice_loop_preserves rel negT rest _ [iv] skipped (taken + 1)
          (lookup_dictInsert_self _ _ _)
      refine ⟨entries', hloop, ?_, fun f hf => ?_, ?_⟩
      · simp only [hx', Option.isSome_some, true_iff]
        exact ⟨iv, List.mem_cons_self _ _, hm⟩
      · rw [hpres f hf, lookup_dictInsert_ne _ _ _ _ hf,
          lookup_dictInsert_ne _ _ _ _ hf]
      · intro v hv
        rw [hx'] at hv
        exact ⟨xs', (Option.some.injEq _ _ ▸ hv).symm ▸ rfl⟩
    · have step : Execution.splice_loop rel none none negT (.dict entries)
          (iv :: rest) skipped taken
          = Execution.splice_loop rel none none negT (.dict entries) rest
            skipped taken := by
        simp only [Execution.splice_loop, hm, if_false, Bool.false_eq_true]
      rw [step]
      obtain ⟨entries', hloop, hiff, hpres, harr⟩ := ih entries skipped taken hx
      refine ⟨entries', hloop, ?_, hpres, harr⟩
      rw [hiff]
      constructor
      · rintro ⟨w, hw, hwm⟩
        exact ⟨w, List.mem_cons_of_mem _ hw, hwm⟩
      · rintro ⟨w, hw, hwm⟩
        rcases List.mem_cons.mp hw with rfl | hw
        · exact absurd hwm hm
        · exact ⟨w, hw, hwm⟩

/-- **C2 (counterexample).** After the include splicing with an empty
include value, a parent whose to-one relation matched no fetched row does
*not* carry the relation key: only to-many (`is_vec`) relations receive the
upfront empty array (`src/execution/mod.rs` line 194); for a to-one
relation the key is created only when a row matches (line 211). -/
theorem C2_include_cardinality_counterexample :
    Execution.splice_direct_one ⟨"author", [("authorId", "id")], false⟩
        none none
        (.dict [("id", Value.int 1), ("authorId", Value.int 5)]) []
      = some (.dict [("id", Value.int 1), ("authorId", Value.int 5)]) ∧
    (Value.dict [("id", Value.int 1), ("authorId", Value.int 5)]).get "author"
      = none := by
  constructor <;> decide

/-- **C2 (amended).** After the direct-relation include splicing with an
empty include value (no per-include skip/take): every parent of a to-many
relation carries the relation key with an array value (possibly empty);
for a to-one relation the key (absent beforehand) is present — with an
array of matched rows as its value — exactly when at least one fetched row
matches the parent, and is absent otherwise.  (The conversion of that
array to object-or-null happens in the runtime's object materialisation
layer, outside this crate.) -/
theorem C2_include_cardinality_amended (rel : RelationInfo)
    (entries : List (String × Value)) (included : List Value) :
    (rel.isVec = true →
      ∃ entries' xs,
        Execution.splice_direct_one rel none none (.dict entries) included
          = some (.dict entries') ∧
        entries'.lookup rel.name = some (.array xs)) ∧
    (rel.isVec = false → entries.lookup rel.name = none →
      ∃ entries',
        Execution.splice_direct_one rel none none (.dict entries) included
          = some (.dict entries') ∧
        ((entries'.lookup rel.name).isSome ↔
          ∃ iv ∈ included, Execution.include_matched rel (.dict entries) iv) ∧
        (∀ v, entries'.lookup rel.name = some v → ∃ ys, v = .array ys)) := by
  constructor
  · intro hv
    have hstep : Execution.splice_direct_one rel none none (.dict entries)
        included
        = Execution.splice_loop rel none none false
          (.dict (dictInsert entries rel.name (.array []))) included 0 0 := by
      simp only [Execution.splice_direct_one, hv, if_true, Value.insert,
        Option.map_none, Option.getD_none]
      rfl
    obtain ⟨entries', xs', hloop, hx', _⟩ :=
      splice_loop_preserves rel false included
        (dictInsert entries rel.name (.array [])) [] 0 0
        (lookup_dictInsert_self _ _ _)
    exact ⟨entries', xs', hstep ▸ hloop, hx'⟩
  · intro hv habs
    have hstep : Execution.splice_direct_one rel none none (.dict entries)
        included
        = Execution.splice_loop rel none none false (.dict entries) included
            0 0 := by
      simp only [Execution.splice_direct_one, hv, Bool.false_eq_true, if_false,
        Option.map_none, Option.getD_none]
      rfl
    obtain ⟨entries', hloop, hiff, _, harr⟩ :=
      splice_loop_absent rel false included entries 0 0 habs
    exact ⟨entries', hstep ▸ hloop, hiff, harr⟩

/-- Witness for `C2_include_cardinality_amended`: a to-many relation over a
parent with no matching rows (the key becomes an empty array), and a
to-one relation with one matching row (the key appears). -/
theorem C2_include_cardinality_amended_witness :
    (∃ entries' xs,
        Execution.splice_direct_one ⟨"posts", [("id", "userId")], true⟩
            none none (.dict [("id", Value.int 1)]) []
          = some (.dict entries') ∧
        entries'.lookup "posts" = some (.array xs)) ∧
    (∃ entries',
        Execution.splice_direct_one ⟨"author", [("authorId", "id")], false⟩
            none none (.dict [("authorId", Value.int 5)])
            [.dict [("id", Value.int 5)]]
          = some (.dict entries') ∧
        ((entries'.lookup "author").isSome ↔
          ∃ iv ∈ [Value.dict [("id", Value.int 5)]],
            Execution.include_matched ⟨"author", [("authorId", "id")], false⟩
              (.dict [("authorId", Value.int 5)]) iv) ∧
        (∀ v, entries'.lookup "author" = some v → ∃ ys, v = .array ys)) :=
  ⟨(C2_include_cardinality_amended ⟨"posts", [("id", "userId")], true⟩
      [("id", Value.int 1)] []).1 rfl,
    (C2_include_cardinality_amended ⟨"author", [("authorId", "id")], false⟩
      [("authorId", Value.int 5)] [.dict [("id", Value.int 5)]]).2 rfl
      (by decide)⟩

/-- The driver calls a transaction handle issues to its owned SQL
transaction (`OwnedTransaction::commit` / `rollback`). -/
inductive DriverCall where
  | commitTran
  | rollbackTran
deriving DecidableEq, Repr

/-- The observable state of `SQLTransaction`
(`src/connector/transaction.rs` lines 35-41): whether the handle holds an
owned SQL transaction (`tran: Option<Arc<OwnedTransaction>>`) and the
`committed` flag. -/
structure SQLTransactionState where
  tran : Bool
  committed : Bool
deriving DecidableEq, Repr

/-- `SQLTransaction::is_committed` (lines 299-301). -/
def SQLTransaction.is_committed (s : SQLTransactionState) : Bool :=
  s.committed

/-- `SQLTransaction::is_transaction` (lines 303-305). -/
def SQLTransaction.is_transaction (s : SQLTransactionState) : Bool :=
  s.tran

/-- `SQLTransaction::commit` (`src/connector/transaction.rs` lines
307-316): when an owned transaction is held, issue the driver commit —
returning its error, with the state untouched, on failure; then (on
success, or when no owned transaction is held) store `committed := true`.
`driverOk` is the driver's outcome for an issued call; the third component
is the trace of driver calls issued. -/
def SQLTransaction.commit (driverOk : Bool) (s : SQLTransactionState) :
    Except String Unit × SQLTransactionState × List DriverCall :=
  if s.tran then
    if driverOk then
      (.ok (), { s with committed := true }, [.commitTran])
    else
      (.error "driver commit failed", s, [.commitTran])
  else
    (.ok (), { s with committed := true }, [])

/-- `SQLTransaction::abort` (lines 318-326): roll the owned transaction
back if one is held; the `committed` flag is never touched. -/
def SQLTransaction.abort (driverOk : Bool) (s : SQLTransactionState) :
    Except String Unit × SQLTransactionState × List DriverCall :=
  if s.tran then
    if driverOk then
      (.ok (), s, [.rollbackTran])
    else
      (.error "driver rollback failed", s, [.rollbackTran])
  else
    (.ok (), s, [])

/-- **C5 (counterexample).** With no owned SQL transaction, `commit()` is
not a no-op: starting from a fresh handle (`committed = false`), a call to
`commit()` stores `committed := true`
(`src/connector/transaction.rs` line 314 runs unconditionally), flipping
the observable `is_committed()`. -/
theorem C5_commit_counterexample :
    (SQLTransaction.commit true ⟨false, false⟩).2.1 ≠ ⟨false, false⟩ ∧
    SQLTransaction.is_committed (SQLTransaction.commit true ⟨false, false⟩).2.1
      = true ∧
    (SQLTransaction.commit true ⟨false, false⟩).2.2 = [] := by
  refine ⟨?_, rfl, rfl⟩
  decide

/-- **C5 (amended).** `abort()` never changes the handle's state and is a
complete no-op (no driver call) when no owned transaction is held;
`commit()` without an owned transaction issues no driver call but still
latches `committed := true`; with an owned transaction, `commit()` issues
the driver commit and sets `committed` only after the driver reports
success, so a failed driver commit returns an error with `is_committed()`
still false; `abort()` with an owned transaction issues the rollback; and
`committed` is latched: once true it stays true across any `commit` or
`abort`. -/
theorem C5_commit_abort_amended (s : SQLTransactionState) (driverOk : Bool) :
    ((SQLTransaction.abort driverOk s).2.1 = s) ∧
    (s.tran = false →
      SQLTransaction.abort driverOk s = (.ok (), s, []) ∧
      SQLTransaction.commit driverOk s = (.ok (), ⟨false, true⟩, [])) ∧
    (s.tran = true →
      (SQLTransaction.commit driverOk s).2.2 = [.commitTran] ∧
      (driverOk = true →
        SQLTransaction.commit driverOk s
          = (.ok (), { s with committed := true }, [.commitTran])) ∧
      (driverOk = false →
        SQLTransaction.commit driverOk s
          = (.error "driver commit failed", s, [.commitTran]) ∧
        SQLTransaction.is_committed (SQLTransaction.commit driverOk s).2.1
          = s.committed) ∧
      (SQLTransaction.abort driverOk s).2.2 = [.rollbackTran]) ∧
    (s.committed = true →
      (SQLTransaction.commit driverOk s).2.1.committed = true ∧
      (SQLTransaction.abort driverOk s).2.1.committed = true) := by
  obtain ⟨tran, committed⟩ := s
  cases tran <;> cases committed <;> cases driverOk <;>
    simp [SQLTransaction.commit, SQLTransaction.abort,
      SQLTransaction.is_committed]

/-- Witness for `C5_commit_abort_amended` on a handle holding an owned
transaction whose driver commit fails. -/
theorem C5_commit_abort_amended_witness :
    (((SQLTransaction.abort false ⟨true, false⟩).2.1 = ⟨true, false⟩) ∧
      ((⟨true, false⟩ : SQLTransactionState).tran = false →
        SQLTransaction.abort false ⟨true, false⟩ = (.ok (), ⟨true, false⟩, []) ∧
        SQLTransaction.commit false ⟨true, false⟩ = (.ok (), ⟨false, true⟩, [])) ∧
      ((⟨true, false⟩ : SQLTransactionState).tran = true →
        (SQLTransaction.commit false ⟨true, false⟩).2.2 = [.commitTran] ∧
        (false = true →
          SQLTransaction.commit false ⟨true, false⟩
            = (.ok (), ⟨true, true⟩, [.commitTran])) ∧
        (false = false →
          SQLTransaction.commit false ⟨true, false⟩
            = (.error "driver commit failed", ⟨true, false⟩, [.commitTran]) ∧
          SQLTransaction.is_committed
              (SQLTransaction.commit false ⟨true, false⟩).2.1
            = (⟨true, false⟩ : SQLTransactionState).committed) ∧
        (SQLTransaction.abort false ⟨true, false⟩).2.2 = [.rollbackTran]) ∧
      ((⟨true, false⟩ : SQLTransactionState).committed = true →
        (SQLTransaction.commit false ⟨true, false⟩).2.1.committed = true ∧
        (SQLTransaction.abort false ⟨true, false⟩).2.1.committed = true)) :=
  C5_commit_abort_amended ⟨true, false⟩ false

/-- The two handles a statement can be executed on from a transaction:
`self.conn()` (the pooled connection, bypassing any owned transaction) or
`self.queryable()`. -/
inductive Route where
  | pooled
  | ownedTran
deriving DecidableEq, Repr

/-- `SQLTransaction::queryable` (`src/connector/transaction.rs` lines
60-66): the owned transaction when one is held, the pooled connection
otherwise. -/
def SQLTransaction.queryable (tran : Bool) : Route :=
  if tran then .ownedTran else .pooled

/-- The statement kinds the verified paths issue. -/
inductive StmtKind where
  | insert
  | update
  | deleteFrom
  | selectQuery
deriving DecidableEq, Repr

/-- The driver statements issued by `SQLTransaction::create_object`
(`src/connector/transaction.rs` lines 80-136), each paired with the handle
it is executed on: the `INSERT` goes through `self.queryable()` on
PostgreSQL (line 101) and through `self.conn()` on the other dialects
(line 118). -/
def SQLTransaction.create_object_trace (dialect : SQLDialect) (tran : Bool) :
    List (StmtKind × Route) :=
  if dialect = .postgresql then
    [(.insert, SQLTransaction.queryable tran)]
  else
    [(.insert, .pooled)]

/-- The driver statements issued by `SQLTransaction::update_object` (lines
138-182): the `UPDATE` (present only when there are values to set, line
167) is executed on `self.conn()` (line 170); the refreshing `find` query
goes through `self.queryable()` (line 175). -/
def SQLTransaction.update_object_trace (tran : Bool) (hasValues : Bool) :
    List (StmtKind × Route) :=
  (if hasValues then [(StmtKind.update, Route.pooled)] else []) ++
    [(StmtKind.selectQuery, SQLTransaction.queryable tran)]

/-- The driver statement issued by `SQLTransaction::delete_object` (lines
250-264): the `DELETE` goes through `self.queryable()` (line 258). -/
def SQLTransaction.delete_object_trace (tran : Bool) :
    List (StmtKind × Route) :=
  [(.deleteFrom, SQLTransaction.queryable tran)]

/-- The driver statements issued by `SQLTransaction::purge` (lines
218-224): one `DELETE FROM` per model, each executed on `self.conn()`
(line 221). -/
def SQLTransaction.purge_trace (_tran : Bool) (models : List String) :
    List (StmtKind × Route) :=
  models.map fun _ => (.deleteFrom, Route.pooled)

/-- The query of the find/count/aggregate/group-by family (lines 266-297)
and `query_raw` (line 227): each goes through `self.queryable()`. -/
def SQLTransaction.find_trace (tran : Bool) : List (StmtKind × Route) :=
  [(.selectQuery, SQLTransaction.queryable tran)]

/-- **C10.** With an owned SQL transaction held (`tran = true`): the
`UPDATE` of `update_object`, the `DELETE FROM`s of `purge`, and the
`INSERT` of `create_object` on MySQL/SQLite (any non-PostgreSQL dialect)
are executed directly on the pooled connection, bypassing the owned
transaction; while the PostgreSQL insert, `delete_object`, the
find/count/aggregate queries and `update_object`'s refresh query go
through `queryable()`, i.e. the owned transaction. -/
theorem C10_owned_transaction_bypass (hasValues : Bool)
    (models : List String) (d : SQLDialect) :
    (∀ r, (StmtKind.update, r) ∈ SQLTransaction.update_object_trace true
        hasValues → r = Route.pooled) ∧
    ((StmtKind.selectQuery, Route.ownedTran)
      ∈ SQLTransaction.update_object_trace true hasValues) ∧
    (∀ e ∈ SQLTransaction.purge_trace true models, e.2 = Route.pooled) ∧
    (d ≠ .postgresql →
      SQLTransaction.create_object_trace d true
        = [(.insert, Route.pooled)]) ∧
    (SQLTransaction.create_object_trace .postgresql true
      = [(.insert, Route.ownedTran)]) ∧
    (SQLTransaction.delete_object_trace true
      = [(.deleteFrom, Route.ownedTran)]) ∧
    (SQLTransaction.find_trace true = [(.selectQuery, Route.ownedTran)]) := by
  refine ⟨?_, ?_, ?_, ?_, rfl, rfl, rfl⟩
  · intro r hr
    cases hasValues <;>
      simp [SQLTransaction.update_object_trace, SQLTransaction.queryable]
        at hr
    exact hr
  · cases hasValues <;>
      simp [SQLTransaction.update_object_trace, SQLTransaction.queryable]
  · intro e he
    simp [SQLTransaction.purge_trace] at he
    obtain ⟨_, _, rfl⟩ := he
    rfl
  · intro hd
    simp [SQLTransaction.create_object_trace, hd]

/-- Witness for `C10_owned_transaction_bypass` at `hasValues := true`,
`models := ["User"]`, `d := MySQL`. -/
theorem C10_owned_transaction_bypass_witness :
    (∀ r, (StmtKind.update, r) ∈ SQLTransaction.update_object_trace true
        true → r = Route.pooled) ∧
    ((StmtKind.selectQuery, Route.ownedTran)
      ∈ SQLTransaction.update_object_trace true true) ∧
    (∀ e ∈ SQLTransaction.purge_trace true ["User"], e.2 = Route.pooled) ∧
    (SQLDialect.mysql ≠ SQLDialect.postgresql →
      SQLTransaction.create_object_trace .mysql true
        = [(.insert, Route.pooled)]) ∧
    (SQLTransaction.create_object_trace .postgresql true
      = [(.insert, Route.ownedTran)]) ∧
    (SQLTransaction.delete_object_trace true
      = [(.deleteFrom, Route.ownedTran)]) ∧
    (SQLTransaction.find_trace true = [(.selectQuery, Route.ownedTran)]) :=
  C10_owned_transaction_bypass true ["User"] .mysql

/-- A transaction handle as produced by `SQLConnection`
(`src/connector/connection.rs`): the pooled connection it wraps (numbered
by checkout order) and whether it holds an owned SQL transaction. -/
structure TransactionHandle where
  connId : Nat
  hasTran : Bool
deriving DecidableEq, Repr

/-- `is_transaction()` of a handle produced by the connection layer
(`tran.is_some()`). -/
def TransactionHandle.is_transaction (h : TransactionHandle) : Bool :=
  h.hasTran

/-- The connection-level state: the process-wide `UNIQUE_TRANSACTION` slot
(`src/connector/connection.rs` lines 56-58) and the number of pool
checkouts performed so far. -/
structure SQLConnectionState where
  uniqueTransaction : Option TransactionHandle
  checkouts : Nat
deriving DecidableEq, Repr

/-- `SQLConnection::sqlite_memory_transaction`
(`src/connector/connection.rs` lines 37-53): under the mutex, lazily check
out a single pooled connection, wrap it in `SQLTransaction::new(dialect,
conn, None)` — no owned transaction — memoise it in the slot and return
it; every later call returns the memoised handle without touching the
pool. -/
def SQLConnection.sqlite_memory_transaction (s : SQLConnectionState) :
    TransactionHandle × SQLConnectionState :=
  match s.uniqueTransaction with
  | none =>
    let h : TransactionHandle := ⟨s.checkouts, false⟩
    (h, ⟨some h, s.checkouts + 1⟩)
  | some h => (h, s)

/-- `SQLConnection::transaction` (lines 63-81): on the SQLite `:memory:`
fast path, delegate to the shared handle; otherwise check out a pooled
connection and start an owned SQL transaction on it. -/
def SQLConnection.transaction (memoryMode : Bool) (dialect : SQLDialect)
    (s : SQLConnectionState) : TransactionHandle × SQLConnectionState :=
  if memoryMode && dialect.is_sqlite then
    SQLConnection.sqlite_memory_transaction s
  else
    (⟨s.checkouts, true⟩, { s with checkouts := s.checkouts + 1 })

/-- `SQLConnection::no_transaction` (lines 83-93): on the `:memory:` fast
path, the shared handle; otherwise a fresh pooled connection with no owned
transaction. -/
def SQLConnection.no_transaction (memoryMode : Bool) (dialect : SQLDialect)
    (s : SQLConnectionState) : TransactionHandle × SQLConnectionState :=
  if memoryMode && dialect.is_sqlite then
    SQLConnection.sqlite_memory_transaction s
  else
    (⟨s.checkouts, false⟩, { s with checkouts := s.checkouts + 1 })

/-- A call against the `Connection` interface. -/
inductive ConnOp where
  | transaction
  | noTransaction
deriving DecidableEq, Repr

/-- Run a sequence of `transaction()`/`no_transaction()` calls, collecting
the returned handles. -/
def SQLConnection.runOps (memoryMode : Bool) (dialect : SQLDialect) :
    List ConnOp → SQLConnectionState →
      List TransactionHandle × SQLConnectionState
  | [], s => ([], s)
  | op :: rest, s =>
    let hs' :=
      match op with
      | .transaction => SQLConnection.transaction memoryMode dialect s
      | .noTransaction => SQLConnection.no_transaction memoryMode dialect s
    let rec' := SQLConnection.runOps memoryMode dialect rest hs'.2
    (hs'.1 :: rec'.1, rec'.2)

theorem runOps_memory_after_init (ops : List ConnOp)
    (h : TransactionHandle) (m : Nat) :
    SQLConnection.runOps true .sqlite ops ⟨some h, m⟩
      = (ops.map fun _ => h, ⟨some h, m⟩) := by
  induction ops with
  | nil => rfl
  | cons op rest ih =>
    cases op <;>
      simp [SQLConnection.runOps, SQLConnection.transaction,
        SQLConnection.no_transaction, SQLConnection.sqlite_memory_transaction,
        SQLDialect.is_sqlite, ih]

/-- **C8 (counterexample).** On the SQLite `:memory:` fast path,
`transaction()` returns the shared handle created by
`sqlite_memory_transaction`, which is built with `tran: None`
(`src/connector/connection.rs` line 45) — so the returned handle reports
`is_transaction() = false`, not `true` as claimed, and no owned SQL
transaction is started. -/
theorem C8_memory_transaction_counterexample :
    (SQLConnection.transaction true .sqlite ⟨none, 0⟩).1.is_transaction
      = false ∧
    (SQLConnection.transaction true .sqlite ⟨none, 0⟩).1
      = (SQLConnection.no_transaction true .sqlite ⟨none, 0⟩).1 := by
  constructor <;> decide

/-- **C8 (amended).** For a SQLite connection in `:memory:` mode, every
call to `transaction()` and `no_transaction()` returns the single shared
handle over one pooled connection: starting from an empty slot, any
non-empty call sequence checks out exactly one pooled connection, all
calls return the same handle, and that handle holds no owned SQL
transaction (`is_transaction() = false`).  Only for a non-memory (or
non-SQLite) connection does `transaction()` check out a fresh pooled
connection and start an owned SQL transaction on it
(`is_transaction() = true`). -/
theorem C8_memory_singleton_amended (ops : List ConnOp) (n : Nat)
    (hops : ops ≠ []) :
    ((SQLConnection.runOps true .sqlite ops ⟨none, n⟩).1
        = ops.map fun _ => (⟨n, false⟩ : TransactionHandle)) ∧
    ((SQLConnection.runOps true .sqlite ops ⟨none, n⟩).2
        = ⟨some ⟨n, false⟩, n + 1⟩) ∧
    (∀ h ∈ (SQLConnection.runOps true .sqlite ops ⟨none, n⟩).1,
        h.is_transaction = false) ∧
    (∀ memoryMode dialect, (memoryMode && dialect.is_sqlite) = false →
      ∀ s : SQLConnectionState,
        SQLConnection.transaction memoryMode dialect s
          = (⟨s.checkouts, true⟩, ⟨s.uniqueTransaction, s.checkouts + 1⟩)) := by
  obtain ⟨op, rest, rfl⟩ := List.exists_cons_of_ne_nil hops
  have hrun : SQLConnection.runOps true .sqlite (op :: rest) ⟨none, n⟩
      = ((⟨n, false⟩ : TransactionHandle) ::
          (rest.map fun _ => (⟨n, false⟩ : TransactionHandle)),
        ⟨some ⟨n, false⟩, n + 1⟩) := by
    cases op <;>
      simp [SQLConnection.runOps, SQLConnection.transaction,
        SQLConnection.no_transaction, SQLConnection.sqlite_memory_transaction,
        SQLDialect.is_sqlite, runOps_memory_after_init]
  refine ⟨by rw [hrun]; rfl, by rw [hrun], ?_, ?_⟩
  · intro h hh
    rw [hrun] at hh
    simp only [List.mem_cons, List.mem_map] at hh
    rcases hh with rfl | ⟨_, _, rfl⟩ <;> rfl
  · intro memoryMode dialect hmd s
    simp [SQLConnection.transaction, hmd]

/-- Witness for `C8_memory_singleton_amended`: `transaction()` followed by
`no_transaction()` on a fresh `:memory:` connection. -/
theorem C8_memory_singleton_amended_witness :
    ((SQLConnection.runOps true .sqlite [.transaction, .noTransaction]
        ⟨none, 0⟩).1
      = [ConnOp.transaction, ConnOp.noTransaction].map
          fun _ => (⟨0, false⟩ : TransactionHandle)) ∧
    ((SQLConnection.runOps true .sqlite [.transaction, .noTransaction]
        ⟨none, 0⟩).2
      = ⟨some ⟨0, false⟩, 0 + 1⟩) ∧
    (∀ h ∈ (SQLConnection.runOps true .sqlite
        [.transaction, .noTransaction] ⟨none, 0⟩).1,
      h.is_transaction = false) ∧
    (∀ memoryMode dialect, (memoryMode && dialect.is_sqlite) = false →
      ∀ s : SQLConnectionState,
        SQLConnection.transaction memoryMode dialect s
          = (⟨s.checkouts, true⟩, ⟨s.uniqueTransaction, s.checkouts + 1⟩)) :=
  C8_memory_singleton_amended [.transaction, .noTransaction] 0 (by decide)

/-- The column descriptor slice `migrate` consumes.
Modelled from the spec: the `schema/column` module (`SQLColumn`) is not
among the available sources; §3 gives the descriptor as (name,
database-type, not-null, default?, …) and only the name and not-null flag
decide the verified behaviour. -/
structure SQLColumnM where
  name : String
  notNull : Bool
deriving DecidableEq, Repr

/-- Modelled from the spec: `ColumnManipulation` (the `schema/column`
decoder module is not among the available sources); §4.9 step 3 lists the
ordered manipulation plan as `CreateIndex`, `DropIndex`,
`AddColumn(default?)`, `AlterColumn(old,new)`, `RemoveColumn`,
`RenameColumn(old,new)`. -/
inductive ColumnManipulation where
  | createIndex (indexName : String)
  | dropIndex (indexName : String)
  | addColumn (column : SQLColumnM) (default : Option Value)
  | alterColumn (oldColumn newColumn : SQLColumnM)
  | removeColumn (name : String)
  | renameColumn (old new : String)
deriving DecidableEq

/-- Modelled from the spec: `ColumnManipulation::is_add_column_non_null`
(the `schema/column` module is not among the available sources); §4.9's
data-loss hazard is "adding a `NOT NULL` column without a default", so the
predicate recognises an `AddColumn` of a not-null column with no
default. -/
def ColumnManipulation.is_add_column_non_null : ColumnManipulation → Bool
  | .addColumn c default => c.notNull && default.isNone
  | _ => false

/-- The driver actions `migrate` issues while reconciling one existing
table (the dialect-specific SQL rendering of each action is out of the
modelled fragment). -/
inductive MigAction where
  | dropTable
  | createTable
  | execCreateIndex (indexName : String)
  | execDropIndex (indexName : String)
  | execAddColumn (column : SQLColumnM) (default : Option Value)
  | execAlterColumn (oldColumn newColumn : SQLColumnM)
  | execRemoveColumn (name : String)
  | execRenameColumn (old new : String)
deriving DecidableEq

/-- The panic message of the `AddColumn` arm
(`src/migration/migrate.rs` line 216). -/
def SQLMigration.add_non_null_panic_message (column table : String) : String :=
  "Cannot add new non null column `" ++ column ++ "', table `" ++ table ++
    "' has records. Consider add a default value or drop the table."

/-- The manipulation-application loop of `SQLMigration::migrate`
(`src/migration/migrate.rs` lines 197-250), with the database state fixed
during the run so the re-probe of `table_has_records` at line 214 returns
the same answer as the one at line 188.  Index manipulations whose name
starts with `teo_primary_sqlite_index` are skipped; adding a not-null
column without a default to a table with records aborts with the panic
message.  Returns the actions issued before stopping, and the abort
message if any. -/
def SQLMigration.apply_manipulations (table_name : String)
    (table_has_records : Bool) :
    List ColumnManipulation → List MigAction × Option String
  | [] => ([], none)
  | m :: rest =>
    match m with
    | .createIndex idx =>
      if ¬ idx.startsWith "teo_primary_sqlite_index" then
        let r := SQLMigration.apply_manipulations table_name table_has_records
          rest
        (.execCreateIndex idx :: r.1, r.2)
      else
        SQLMigration.apply_manipulations table_name table_has_records rest
    | .dropIndex idx =>
      if ¬ idx.startsWith "teo_primary_sqlite_index" then
        let r := SQLMigration.apply_manipulations table_name table_has_records
          rest
        (.execDropIndex idx :: r.1, r.2)
      else
        SQLMigration.apply_manipulations table_name table_has_records rest
    | .addColumn c default =>
      if c.notNull && default.isNone && table_has_records then
        ([], some (SQLMigration.add_non_null_panic_message c.name table_name))
      else
        let r := SQLMigration.apply_manipulations table_name table_has_records
          rest
        (.execAddColumn c default :: r.1, r.2)
    | .alterColumn oldC newC =>
      let r := SQLMigration.apply_manipulations table_name table_has_records
        rest
      (.execAlterColumn oldC newC :: r.1, r.2)
    | .removeColumn name =>
      let r := SQLMigration.apply_manipulations table_name table_has_records
        rest
      (.execRemoveColumn name :: r.1, r.2)
    | .renameColumn o n =>
      let r := SQLMigration.apply_manipulations table_name table_has_records
        rest
      (.execRenameColumn o n :: r.1, r.2)

/-- The per-existing-table decision of `SQLMigration::migrate`
(`src/migration/migrate.rs` lines 188-251): when the table has records,
the plan adds a non-null column and the model opts into
drop-when-migrate, drop and recreate the table; otherwise apply the
manipulations in order. -/
def SQLMigration.migrate_existing_table (table_name : String)
    (table_has_records : Bool) (allows_drop_when_migrate : Bool)
    (manipulations : List ColumnManipulation) :
    List MigAction × Option String :=
  if table_has_records &&
      manipulations.any ColumnManipulation.is_add_column_non_null &&
      allows_drop_when_migrate then
    ([.dropTable, .createTable], none)
  else
    SQLMigration.apply_manipulations table_name table_has_records manipulations

theorem apply_manipulations_abort (table_name : String) :
    ∀ manips : List ColumnManipulation,
      (∃ c : SQLColumnM, c.notNull = true ∧
        ColumnManipulation.addColumn c none ∈ manips) →
      (∃ c' : SQLColumnM, c'.notNull = true ∧
        ColumnManipulation.addColumn c' none ∈ manips ∧
        (SQLMigration.apply_manipulations table_name true manips).2
          = some (SQLMigration.add_non_null_panic_message c'.name
              table_name)) ∧
      (∀ (c'' : SQLColumnM) (d : Option Value),
        MigAction.execAddColumn c'' d
            ∈ (SQLMigration.apply_manipulations table_name true manips).1 →
          ¬(c''.notNull = true ∧ d = none)) := by
  intro manips
  induction manips with
  | nil => rintro ⟨c, _, hmem⟩; simp at hmem
  | cons m rest ih =>
    rintro ⟨c, hcn, hmem⟩
    have step : ∀ (act : MigAction),
        (∃ c0 : SQLColumnM, c0.notNull = true ∧
          ColumnManipulation.addColumn c0 none ∈ rest) →
        (¬ ∃ (c'' : SQLColumnM) (d : Option Value),
          act = MigAction.execAddColumn c'' d ∧ c''.notNull = true ∧
            d = none) →
        (SQLMigration.apply_manipulations table_name true (m :: rest)).1
            = act :: (SQLMigration.apply_manipulations table_name true rest).1 →
        (SQLMigration.apply_manipulations table_name true (m :: rest)).2
            = (SQLMigration.apply_manipulations table_name true rest).2 →
        (∃ c' : SQLColumnM, c'.notNull = true ∧
          ColumnManipulation.addColumn c' none ∈ m :: rest ∧
          (SQLMigration.apply_manipulations table_name true (m :: rest)).2
            = some (SQLMigration.add_non_null_panic_message c'.name
                table_name)) ∧
        (∀ (c'' : SQLColumnM) (d : Option Value),
          MigAction.execAddColumn c'' d
              ∈ (SQLMigration.apply_manipulations table_name true
                (m :: rest)).1 →
            ¬(c''.notNull = true ∧ d = none)) := by
      intro act hrest hact h1 h2
      obtain ⟨hex, hall⟩ := ih hrest
      obtain ⟨c', hc', hmem', habort⟩ := hex
      refine ⟨⟨c', hc', List.mem_cons_of_mem _ hmem', h2 ▸ habort⟩, ?_⟩
      intro c'' d hmemact
      rw [h1] at hmemact
      rcases List.mem_cons.mp hmemact with heq | hmemact
      · rintro ⟨hnn, hdn⟩
        exact hact ⟨c'', d, heq.symm, hnn, hdn⟩
      · exact hall c'' d hmemact
    rcases m with idx | idx | ⟨c0, d0⟩ | ⟨oldC, newC⟩ | nm | ⟨o, n⟩
    · rcases List.mem_cons.mp hmem with heq | hmem'
      · exact absurd heq (by simp)
      · by_cases hskip : ¬ idx.startsWith "teo_primary_sqlite_index"
        · refine step (.execCreateIndex idx) ⟨c, hcn, hmem'⟩ (by simp) ?_ ?_ <;>
            simp [SQLMigration.apply_manipulations, hskip]
        · obtain ⟨hex, hall⟩ := ih ⟨c, hcn, hmem'⟩
          obtain ⟨c', hc', hmem'', habort⟩ := hex
          have hred : SQLMigration.apply_manipulations table_name true
              (ColumnManipulation.createIndex idx :: rest)
              = SQLMigration.apply_manipulations table_name true rest := by
            simp [SQLMigration.apply_manipulations, hskip]
          rw [hred]
          exact ⟨⟨c', hc', List.mem_cons_of_mem _ hmem'', habort⟩, hall⟩
    · rcases List.mem_cons.mp hmem with heq | hmem'
      · exact absurd heq (by simp)
      · by_cases hskip : ¬ idx.startsWith "teo_primary_sqlite_index"
        · refine step (.execDropIndex idx) ⟨c, hcn, hmem'⟩ (by simp) ?_ ?_ <;>
            simp [SQLMigration.apply_manipulations, hskip]
        · obtain ⟨hex, hall⟩ := ih ⟨c, hcn, hmem'⟩
          obtain ⟨c', hc', hmem'', habort⟩ := hex
          have hred : SQLMigration.apply_manipulations table_name true
              (ColumnManipulation.dropIndex idx :: rest)
              = SQLMigration.apply_manipulations table_name true rest := by
            simp [SQLMigration.apply_manipulations, hskip]
          rw [hred]
          exact ⟨⟨c', hc', List.mem_cons_of_mem _ hmem'', habort⟩, hall⟩
    · by_cases habort : c0.notNull && d0.isNone && true
      · have hred : SQLMigration.apply_manipulations table_name true
            (ColumnManipulation.addColumn c0 d0 :: rest)
            = ([], some (SQLMigration.add_non_null_panic_message c0.name
                table_name)) := by
          simp only [SQLMigration.apply_manipulations, if_pos habort]
        rw [hred]
        simp only [Bool.and_eq_true, Option.isNone_iff_eq_none] at habort
        refine ⟨⟨c0, habort.1.1, ?_, rfl⟩, ?_⟩
        · rw [habort.1.2]
          exact List.mem_cons_self _ _
        · intro c'' d hmemact
          simp at hmemact
      · have hrest : ∃ c1 : SQLColumnM, c1.notNull = true ∧
            ColumnManipulation.addColumn c1 none ∈ rest := by
          rcases List.mem_cons.mp hmem with heq | hmem'
          · exfalso
            apply habort
            obtain ⟨h1, h2⟩ := ColumnManipulation.addColumn.inj heq.symm
            subst h1
            subst h2
            simp [hcn]
          · exact ⟨c, hcn, hmem'⟩
        refine step (.execAddColumn c0 d0) hrest ?_ ?_ ?_
        · rintro ⟨c'', d, heq, hnn, hdn⟩
          obtain ⟨h1, h2⟩ := MigAction.execAddColumn.inj heq
          subst h1
          subst h2
          exact habort (by simp [hnn, hdn])
        · have habort' : ¬(c0.notNull = true ∧ d0 = none) := by
            simpa using habort
          simp [SQLMigration.apply_manipulations, habort']
        · have habort' : ¬(c0.notNull = true ∧ d0 = none) := by
            simpa using habort
          simp [SQLMigration.apply_manipulations, habort']
    · rcases List.mem_cons.mp hmem with heq | hmem'
      · exact absurd heq (by simp)
      · refine step (.execAlterColumn oldC newC) ⟨c, hcn, hmem'⟩ (by simp)
          rfl rfl
    · rcases List.mem_cons.mp hmem with heq | hmem'
      · exact absurd heq (by simp)
      · refine step (.execRemoveColumn nm) ⟨c, hcn, hmem'⟩ (by simp) rfl rfl
    · rcases List.mem_cons.mp hmem with heq | hmem'
      · exact absurd heq (by simp)
      · refine step (.execRenameColumn o n) ⟨c, hcn, hmem'⟩ (by simp) rfl rfl

/-- **C6.** When migrate processes an existing table with at least one
record and the diff plan adds a `NOT NULL` column without a default: if
the model allows drop-when-migrate, the table is dropped and recreated
(and the column-wise plan is not executed); otherwise the engine refuses,
aborting with the fatal message that names the column and the table, and
no `ALTER TABLE … ADD` for a not-null, defaultless column is ever
issued. -/
theorem C6_nonnull_add_without_default (table_name : String)
    (allows_drop : Bool) (manips : List ColumnManipulation)
    (c : SQLColumnM) (hc : c.notNull = true)
    (hmem : ColumnManipulation.addColumn c none ∈ manips) :
    (allows_drop = true →
      SQLMigration.migrate_existing_table table_name true allows_drop manips
        = ([.dropTable, .createTable], none)) ∧
    (allows_drop = false →
      (∃ c' : SQLColumnM, c'.notNull = true ∧
        ColumnManipulation.addColumn c' none ∈ manips ∧
        (SQLMigration.migrate_existing_table table_name true allows_drop
            manips).2
          = some (SQLMigration.add_non_null_panic_message c'.name
              table_name)) ∧
      (∀ (c'' : SQLColumnM) (d : Option Value),
        MigAction.execAddColumn c'' d
            ∈ (SQLMigration.migrate_existing_table table_name true
              allows_drop manips).1 →
          ¬(c''.notNull = true ∧ d = none))) := by
  have hany : manips.any ColumnManipulation.is_add_column_non_null = true := by
    rw [List.any_eq_true]
    exact ⟨_, hmem, by simp [ColumnManipulation.is_add_column_non_null, hc]⟩
  constructor
  · intro hdrop
    simp [SQLMigration.migrate_existing_table, hany, hdrop]
  · intro hdrop
    have hred : SQLMigration.migrate_existing_table table_name true
        allows_drop manips
        = SQLMigration.apply_manipulations table_name true manips := by
      simp [SQLMigration.migrate_existing_table, hany, hdrop]
    rw [hred]
    exact apply_manipulations_abort table_name manips ⟨c, hc, hmem⟩

/-- Witness for `C6_nonnull_add_without_default`: adding non-null
`status` to populated `User` with `allowsDropWhenMigrate = false`. -/
theorem C6_nonnull_add_without_default_witness :
    (true = true →
      SQLMigration.migrate_existing_table "User" true true
          [ColumnManipulation.addColumn ⟨"status", true⟩ none]
        = ([.dropTable, .createTable], none)) ∧
    (true = false →
      (∃ c' : SQLColumnM, c'.notNull = true ∧
        ColumnManipulation.addColumn c' none
          ∈ [ColumnManipulation.addColumn ⟨"status", true⟩ none] ∧
        (SQLMigration.migrate_existing_table "User" true true
            [ColumnManipulation.addColumn ⟨"status", true⟩ none]).2
          = some (SQLMigration.add_non_null_panic_message c'.name "User")) ∧
      (∀ (c'' : SQLColumnM) (d : Option Value),
        MigAction.execAddColumn c'' d
            ∈ (SQLMigration.migrate_existing_table "User" true true
              [ColumnManipulation.addColumn ⟨"status", true⟩ none]).1 →
          ¬(c''.notNull = true ∧ d = none))) :=
  C6_nonnull_add_without_default "User" true
    [ColumnManipulation.addColumn ⟨"status", true⟩ none]
    ⟨"status", true⟩ rfl (List.mem_cons_self _ _)

/-- The refusal evaluated at the scenario of the claim: populated `User`,
plan adds non-null `status` without default, drop-when-migrate off — the
engine aborts with the message naming the column and the table and issues
no action. -/
theorem migrate_refusal_scenario_S6 :
    SQLMigration.migrate_existing_table "User" true false
        [ColumnManipulation.addColumn ⟨"status", true⟩ none]
      = ([], some (SQLMigration.add_non_null_panic_message "status" "User")) := by
  decide

/-- The runtime `Field` interface slice the builder consumes: name, column
name, declared type, optionality. -/
structure FieldM where
  name : String
  columnName : String
  type' : Type'
  optional : Bool

/-- The runtime `Model` interface slice the builder consumes: table name,
fields, the save-key cache and the primary index's ordered field names.
Models of this development carry no relations, so `Query::where`'s
relation arm (`src/query/mod.rs` lines 200-278), which runs through the
runtime namespace interface, never fires: an unknown key contributes no
clause, exactly as in the source when a key is neither a field nor a
relation. -/
structure ModelM where
  table_name : String
  fields : List FieldM
  save_keys : List String
  primary_index_items : List String

/-- `model.field(key)`: the field with that name. -/
def ModelM.field (m : ModelM) (key : String) : Option FieldM :=
  m.fields.find? fun f => f.name == key

/-- `Query::order_by` (`src/query/mod.rs` lines 284-308): render each
`{field: "asc"|"desc"}` entry as `<column> ASC|DESC`, with the directions
inverted under negative take; entries whose key is no field or whose value
is not a string contribute nothing; a non-array argument, a non-dictionary
entry or an unrecognised direction string is a source panic (`none`). -/
def Query.order_by (model : ModelM) (order_by : Value) (negative_take : Bool) :
    Option String :=
  match order_by with
  | .array items =>
    let asc := if negative_take then "DESC" else "ASC"
    let desc := if negative_take then "ASC" else "DESC"
    (items.mapM fun item =>
      (match item with
      | .dict ((key, v) :: _) =>
        match model.field key with
        | some field =>
          match v with
          | .str dir =>
            if dir = "asc" then some (some (field.columnName ++ " " ++ asc))
            else if dir = "desc" then
              some (some (field.columnName ++ " " ++ desc))
            else none
          | _ => some none
        | none => some none
      | _ => none : Option (Option String))).map fun parts =>
        String.intercalate "," (parts.filterMap id)
  | _ => none

/-- `Query::default_desc_order` (`src/query/mod.rs` lines 501-507): one
`{field: "desc"}` entry per primary-index item. -/
def Query.default_desc_order (model : ModelM) : Value :=
  .array (model.primary_index_items.map fun item => .dict [(item, .str "desc")])

/-- `SQLSelectStatement` from `stmts/select`.
Modelled from the spec: the module's source is not available; the field
list follows the constructor in `stmts/mod.rs` (`SQL::select` initialises
columns, from, where, order_by, limit, left_join, inner_join), with
`limit` the `(limit, offset)` pair applied by `stmt.limit(limit, skip)`. -/
structure SQLSelectStatement where
  columns : Option (List String)
  fromClause : String
  whereClause : Option String
  orderBy : Option String
  limitOffset : Option (Nat × Nat)
  leftJoin : Option String
  innerJoin : Option String
deriving DecidableEq

/-- `SQL::select` from `stmts/mod.rs`. -/
def SQL.select (columns : Option (List String)) (fromClause : String) :
    SQLSelectStatement :=
  ⟨columns, fromClause, none, none, none, none, none⟩

/-- Modelled from the spec: the rendering of a select statement —
`SELECT <columns|*> FROM <from>` followed by the optional `INNER JOIN`,
`LEFT JOIN`, `WHERE`, `ORDER BY` and `LIMIT <limit> OFFSET <offset>`
clauses (§4.5 and the scenarios of §8 fix this shape). -/
def SQLSelectStatement.render (s : SQLSelectStatement) (_d : SQLDialect) :
    String :=
  "SELECT "
    ++ (match s.columns with
        | none => "*"
        | some cols => String.intercalate ", " cols)
    ++ " FROM " ++ s.fromClause
    ++ (match s.innerJoin with | none => "" | some j => " INNER JOIN " ++ j)
    ++ (match s.leftJoin with | none => "" | some j => " LEFT JOIN " ++ j)
    ++ (match s.whereClause with | none => "" | some w => " WHERE " ++ w)
    ++ (match s.orderBy with | none => "" | some o => " ORDER BY " ++ o)
    ++ (match s.limitOffset with
        | none => ""
        | some lo => " LIMIT " ++ toString lo.1 ++ " OFFSET " ++ toString lo.2)

mutual

/-- `Query::where` (`src/query/mod.rs` lines 172-282) for relation-free
models: the conjunction of the clauses of the entries; a non-dictionary
argument is the source's `unwrap` panic. -/
def Query.where' (model : ModelM) (v : Value) (d : SQLDialect)
    (table_alias : Option String) : Option String :=
  match v with
  | .dict entries =>
    (Query.where_entries model entries d table_alias).map fun retval =>
      (WhereClause.and retval).render d
  | _ => none
termination_by structural v

/-- The entry loop of `Query::where`: `AND`/`OR`/`NOT` recurse and wrap;
a field key renders its predicate through `where_entry` (with the
alias-qualified column name when a table alias is given); any other key
contributes no clause (no relations in the embedded models). -/
def Query.where_entries (model : ModelM)
    (entries : List (String × Value)) (d : SQLDialect)
    (table_alias : Option String) : Option (List String) :=
  match entries with
  | [] => some []
  | (key, value) :: rest =>
    let clause : Option (List String) :=
      if key = "AND" then
        match value with
        | .array ws =>
          (Query.where_list model ws d table_alias).map fun inner =>
            ["(" ++ (WhereClause.and inner).render d ++ ")"]
        | _ => none
      else if key = "OR" then
        match value with
        | .array ws =>
          (Query.where_list model ws d table_alias).map fun inner =>
            ["(" ++ (WhereClause.or inner).render d ++ ")"]
        | _ => none
      else if key = "NOT" then
        (Query.where' model value d table_alias).map fun inner =>
          ["(" ++ (WhereClause.not inner).render d ++ ")"]
      else
        match model.field key with
        | some field =>
          let entry_column_name :=
            match table_alias with
            | some a => a ++ "." ++ field.columnName
            | none => field.columnName
          (Query.where_entry entry_column_name field.type' field.optional
            value d).map fun e => [e]
        | none => some []
    clause.bind fun cs =>
      (Query.where_entries model rest d table_alias).map fun more => cs ++ more
termination_by structural entries

/-- The recursion over the members of an `AND`/`OR` array. -/
def Query.where_list (model : ModelM) (ws : List Value) (d : SQLDialect)
    (table_alias : Option String) : Option (List String) :=
  match ws with
  | [] => some []
  | w :: rest =>
    (Query.where' model w d table_alias).bind fun s =>
      (Query.where_list model rest d table_alias).map fun more => s :: more
termination_by structural ws

end

instance {e a : Type} [DecidableEq e] [DecidableEq a] :
    DecidableEq (Except e a) := fun x y =>
  match x, y with
  | .ok x, .ok y => decidable_of_iff (x = y) (by simp)
  | .error x, .error y => decidable_of_iff (x = y) (by simp)
  | .ok _, .error _ => .isFalse (by simp)
  | .error _, .ok _ => .isFalse (by simp)

/-- `Query::build` (`src/query/mod.rs` lines 388-499) for relation-free
models: read the finder's arguments; build the `FROM` (the cursor product
subquery when a cursor is given — an `Err` when `orderBy` is absent);
compose the `WHERE` with the additional and cursor predicates; apply the
left join; the `ORDER BY` (defaulting to primary-key descending under
negative take with no explicit order); and the `LIMIT`/`OFFSET` pair —
`(pageSize, pageNumber)` mode first, otherwise `(skip, take)` with the
dialect's no-limit sentinel when only `skip` is given.  The source's
`unwrap`/`panic!` exits are `.error "panic"`. -/
def Query.build (model : ModelM) (value : Value) (d : SQLDialect)
    (additional_where : Option String) (additional_left_join : Option String)
    (join_table_results : Option (List String))
    (force_negative_take : Bool) : Except String SQLSelectStatement :=
  let whereV := value.get "where"
  let order_by := value.get "orderBy"
  let page_size := value.get "pageSize"
  let page_number := value.get "pageNumber"
  let skip := value.get "skip"
  let take := value.get "take"
  let cursor := value.get "cursor"
  match (match take with
         | some t => t.asInt64.map fun i => decide (i < 0)
         | none => some force_negative_take) with
  | none => .error "panic"
  | some negative_take =>
  let table_name :=
    if additional_left_join.isSome then
      SQLEscape.escape model.table_name d ++ " AS t"
    else
      SQLEscape.escape model.table_name d
  let columns :=
    (if additional_left_join.isSome then
      model.save_keys.map fun k =>
        "t." ++ SQLEscape.escape k d ++ " AS " ++ SQLEscape.escape k d
    else []) ++
    (match join_table_results with
     | some results => results
     | none => [])
  let fromE : Except String String :=
    match cursor with
    | some cursorV =>
      if order_by.isNone then
        .error "cursor is invalid without order by argument"
      else
        match (do
          let obArr ← (order_by.getD Value.null).asArray
          let ob0 ← obArr.head?
          let obDict ← ob0.asDict
          let firstKey ← (obDict.map Prod.fst).head?
          let field ← model.field firstKey
          let cursorDict ← cursorV.asDict
          pure (field.columnName, cursorDict) : Option (String × List (String × Value))) with
        | none => .error "panic"
        | some (column_key, cursorDict) =>
          let cols := cursorDict.map fun _ =>
            if d = SQLDialect.postgresql then
              column_key ++ " AS \"c." ++ column_key ++ "\""
            else
              column_key ++ " AS `c." ++ column_key ++ "`"
          match Query.where' model cursorV d none with
          | none => .error "panic"
          | some sub_where =>
            let query := SQL.select (some cols) table_name
            let query := { query with whereClause := some sub_where }
            .ok (table_name ++ ", (" ++ query.render d ++ ") AS c")
    | none => .ok table_name
  match fromE with
  | .error e => .error e
  | .ok fr =>
  let stmt := SQL.select (if columns.isEmpty then none else some columns) fr
  match (match whereV with
         | some w =>
           match w.asDict with
           | none => none
           | some entries =>
             if entries.isEmpty then some stmt
             else
               match Query.where' model w d none with
               | none => none
               | some ws => some { stmt with whereClause := some ws }
         | none => some stmt) with
  | none => .error "panic"
  | some stmt =>
  let stmt :=
    match additional_where with
    | some aw =>
      match stmt.whereClause with
      | some w0 =>
        { stmt with whereClause := some ((WhereClause.and [w0, aw]).render d) }
      | none => { stmt with whereClause := some aw }
    | none => stmt
  match (match cursor with
         | some _ =>
           (do
             let obArr ← (order_by.getD Value.null).asArray
             let ob0 ← obArr.head?
             let obDict ← ob0.asDict
             let firstKey ← (obDict.map Prod.fst).head?
             let firstVal ← (obDict.map Prod.snd).head?
             let dirStr ← firstVal.asStr
             let ord := if dirStr = (if negative_take then "desc" else "asc")
               then ">=" else "<="
             let cursor_where := Query.where_item firstKey ord
               ("`c." ++ firstKey ++ "`")
             match stmt.whereClause with
             | some w0 =>
               pure { stmt with whereClause := some ((WhereClause.and [w0, cursor_where]).render d) }
             | none => pure { stmt with whereClause := some cursor_where })
         | none => some stmt) with
  | none => .error "panic"
  | some stmt =>
  let stmt :=
    match additional_left_join with
    | some lj => { stmt with leftJoin := some lj }
    | none => stmt
  match (match order_by with
         | some order_bys =>
           (Query.order_by model order_bys negative_take).map fun o =>
             { stmt with orderBy := some o }
         | none =>
           if negative_take then
             (Query.order_by model (Query.default_desc_order model)
               false).map fun o => { stmt with orderBy := some o }
           else
             some stmt) with
  | none => .error "panic"
  | some stmt =>
  match (if page_size.isSome ∧ page_number.isSome then
      (do
        let ps ← (page_size.getD Value.null).asInt64
        let pn ← (page_number.getD Value.null).asInt64
        pure { stmt with limitOffset := some (u64ofInt ps, u64ofInt ((pn - 1) * ps)) }
        : Option SQLSelectStatement)
    else if skip.isSome ∨ take.isSome then
      (do
        let skipN ← match skip with
          | some s => s.asInt64.map u64ofInt
          | none => pure 0
        let limitN ← match take with
          | some t => t.asInt64.map fun i => i.natAbs
          | none => pure (if d = SQLDialect.mysql then 18446744073709551615
              else 9223372036854775806)
        pure { stmt with limitOffset := some (limitN, skipN) })
    else
      some stmt) with
  | none => .error "panic"
  | some stmt => .ok stmt

example : Query.build ⟨"User", [], [], []⟩
    (.dict [("pageSize", .int 10), ("pageNumber", .int 3)]) .mysql
    none none none false
    = .ok ⟨none, "`User`", none, none, some (10, 20), none, none⟩ := by decide

example : Query.build ⟨"User", [], [], []⟩
    (.dict [("skip", .int 4)]) .postgresql none none none false
    = .ok ⟨none, "\"User\"", none, none, some (9223372036854775806, 4), none,
        none⟩ := by decide

example : Query.build ⟨"User", [], [], []⟩
    (.dict [("cursor", .dict [("id", .int 5)])]) .mysql none none none false
    = .error "cursor is invalid without order by argument" := by decide

example : Query.build ⟨"User", [⟨"id", "id", .int, false⟩], [], ["id"]⟩
    (.dict [("cursor", .dict [("id", .int 5)]),
      ("orderBy", .array [.dict [("id", .str "asc")]])]) .mysql
    none none none false
    = .ok ⟨none,
        "`User`, (SELECT id AS `c.id` FROM `User` WHERE `id` = 5) AS c",
        some (Query.where_item "id" ">=" "`c.id`"), some "id ASC", none, none,
        none⟩ := by decide

/-- **C7.** A query value tree with a `cursor` argument but no `orderBy`
makes `Query::build` fail with `cursor is invalid without order by
argument` instead of producing SQL.  With both present (here: cursor
`{id: v}`, order `[{id: dir}]`, `take: t` over a model whose `id` field
has column `ck`), the `FROM` clause becomes the product of the table and
the cursor subquery selecting `ck AS "c.ck"` under the cursor equality,
and the `WHERE` gains the predicate comparing the ordered column against
the `c.`-qualified cursor column with `>=` — or `<=` when the requested
direction differs from the effective one (the order being flipped under
negative take). -/
theorem C7_cursor_requires_order_by (T ck : String) (cval : Value)
    (dir : String) (t : Int) (d : SQLDialect) (subWhere : String)
    (hdir : dir = "asc" ∨ dir = "desc")
    (hsub : Query.where' ⟨T, [⟨"id", ck, .int, false⟩], [], ["id"]⟩
      (.dict [("id", cval)]) d none = some subWhere) :
    (∀ value : Value,
      value.get "cursor" = some (.dict [("id", cval)]) →
      value.get "orderBy" = none →
      (value.get "take" = none ∨ ∃ i : Int, value.get "take" = some (.int i)) →
      Query.build ⟨T, [⟨"id", ck, .int, false⟩], [], ["id"]⟩ value d
          none none none false
        = .error "cursor is invalid without order by argument") ∧
    (∃ stmt,
      Query.build ⟨T, [⟨"id", ck, .int, false⟩], [], ["id"]⟩
          (.dict [("cursor", .dict [("id", cval)]),
            ("orderBy", .array [.dict [("id", .str dir)]]),
            ("take", .int t)]) d none none none false
        = .ok stmt ∧
      stmt.fromClause
        = SQLEscape.escape T d ++ ", ("
          ++ SQLSelectStatement.render
            ⟨some [if d = SQLDialect.postgresql then
                ck ++ " AS \"c." ++ ck ++ "\""
              else ck ++ " AS `c." ++ ck ++ "`"],
              SQLEscape.escape T d, some subWhere, none, none, none, none⟩ d
          ++ ") AS c" ∧
      stmt.whereClause
        = some (Query.where_item "id"
            (if dir = (if t < 0 then "desc" else "asc") then ">=" else "<=")
            ("`c.id`"))) := by
  constructor
  · intro value hcur hord htake
    rcases htake with htn | ⟨i, hti⟩
    · simp only [Query.build, hcur, hord, htn]
      rfl
    · simp only [Query.build, hcur, hord, hti]
      rfl
  · have gw : (Value.dict [("cursor", Value.dict [("id", cval)]),
        ("orderBy", Value.array [Value.dict [("id", Value.str dir)]]),
        ("take", Value.int t)]).get "where" = none := rfl
    have go : (Value.dict [("cursor", Value.dict [("id", cval)]),
        ("orderBy", Value.array [Value.dict [("id", Value.str dir)]]),
        ("take", Value.int t)]).get "orderBy"
        = some (.array [.dict [("id", Value.str dir)]]) := rfl
    have gt' : (Value.dict [("cursor", Value.dict [("id", cval)]),
        ("orderBy", Value.array [Value.dict [("id", Value.str dir)]]),
        ("take", Value.int t)]).get "take" = some (Value.int t) := rfl
    have gc : (Value.dict [("cursor", Value.dict [("id", cval)]),
        ("orderBy", Value.array [Value.dict [("id", Value.str dir)]]),
        ("take", Value.int t)]).get "cursor"
        = some (.dict [("id", cval)]) := rfl
    by_cases ht0 : t < 0
    · have hdec : decide (t < 0) = true := by simp [ht0]
      rcases hdir with rfl | rfl
      · refine ⟨⟨none,
          SQLEscape.escape T d ++ ", ("
            ++ SQLSelectStatement.render
              ⟨some [if d = SQLDialect.postgresql then
                  ck ++ " AS \"c." ++ ck ++ "\""
                else ck ++ " AS `c." ++ ck ++ "`"],
                SQLEscape.escape T d, some subWhere, none, none, none, none⟩ d
            ++ ") AS c",
          some (Query.where_item "id" "<=" "`c.id`"),
          some (ck ++ " " ++ "DESC"), some (t.natAbs, 0), none, none⟩, ?_, rfl, ?_⟩
        · simp only [Query.build, gw, go, gt', gc, Value.asInt64,
            Option.map_some', hdec, hsub]
          rfl
        · simp only [if_pos ht0]
          rfl
      · refine ⟨⟨none,
          SQLEscape.escape T d ++ ", ("
            ++ SQLSelectStatement.render
              ⟨some [if d = SQLDialect.postgresql then
                  ck ++ " AS \"c." ++ ck ++ "\""
                else ck ++ " AS `c." ++ ck ++ "`"],
                SQLEscape.escape T d, some subWhere, none, none, none, none⟩ d
            ++ ") AS c",
          some (Query.where_item "id" ">=" "`c.id`"),
          some (ck ++ " " ++ "ASC"), some (t.natAbs, 0), none, none⟩, ?_, rfl, ?_⟩
        · simp only [Query.build, gw, go, gt', gc, Value.asInt64,
            Option.map_some', hdec, hsub]
          rfl
        · simp only [if_pos ht0]
          rfl
    · have hdec : decide (t < 0) = false := by simp [ht0]
      rcases hdir with rfl | rfl
      · refine ⟨⟨none,
          SQLEscape.escape T d ++ ", ("
            ++ SQLSelectStatement.render
              ⟨some [if d = SQLDialect.postgresql then
                  ck ++ " AS \"c." ++ ck ++ "\""
                else ck ++ " AS `c." ++ ck ++ "`"],
                SQLEscape.escape T d, some subWhere, none, none, none, none⟩ d
            ++ ") AS c",
          some (Query.where_item "id" ">=" "`c.id`"),
          some (ck ++ " " ++ "ASC"), some (t.natAbs, 0), none, none⟩, ?_, rfl, ?_⟩
        · simp only [Query.build, gw, go, gt', gc, Value.asInt64,
            Option.map_some', hdec, hsub]
          rfl
        · simp only [if_neg ht0]
          rfl
      · refine ⟨⟨none,
          SQLEscape.escape T d ++ ", ("
            ++ SQLSelectStatement.render
              ⟨some [if d = SQLDialect.postgresql then
                  ck ++ " AS \"c." ++ ck ++ "\""
                else ck ++ " AS `c." ++ ck ++ "`"],
                SQLEscape.escape T d, some subWhere, none, none, none, none⟩ d
            ++ ") AS c",
          some (Query.where_item "id" "<=" "`c.id`"),
          some (ck ++ " " ++ "DESC"), some (t.natAbs, 0), none, none⟩, ?_, rfl, ?_⟩
        · simp only [Query.build, gw, go, gt', gc, Value.asInt64,
            Option.map_some', hdec, hsub]
          rfl
        · simp only [if_neg ht0]
          rfl

theorem C7_cursor_requires_order_by_witness :
    ("asc" = "asc" ∨ "asc" = "desc") ∧
    Query.where' ⟨"User", [⟨"id", "id", .int, false⟩], [], ["id"]⟩
      (.dict [("id", Value.int 5)]) .mysql none = some "`id` = 5" ∧
    ((∀ value : Value,
      value.get "cursor" = some (.dict [("id", Value.int 5)]) →
      value.get "orderBy" = none →
      (value.get "take" = none ∨ ∃ i : Int, value.get "take" = some (.int i)) →
      Query.build ⟨"User", [⟨"id", "id", .int, false⟩], [], ["id"]⟩ value
          .mysql none none none false
        = .error "cursor is invalid without order by argument") ∧
    (∃ stmt,
      Query.build ⟨"User", [⟨"id", "id", .int, false⟩], [], ["id"]⟩
          (.dict [("cursor", .dict [("id", .int 5)]),
            ("orderBy", .array [.dict [("id", .str "asc")]]),
            ("take", .int 2)]) .mysql none none none false
        = .ok stmt ∧
      stmt.fromClause
        = SQLEscape.escape "User" .mysql ++ ", ("
          ++ SQLSelectStatement.render
            ⟨some [if SQLDialect.mysql = SQLDialect.postgresql then
                "id" ++ " AS \"c." ++ "id" ++ "\""
              else "id" ++ " AS `c." ++ "id" ++ "`"],
              SQLEscape.escape "User" .mysql, some "`id` = 5", none, none,
              none, none⟩ .mysql
          ++ ") AS c" ∧
      stmt.whereClause
        = some (Query.where_item "id"
            (if "asc" = (if (2 : Int) < 0 then "desc" else "asc")
              then ">=" else "<=")
            ("`c.id`")))) :=
  ⟨Or.inl rfl, by decide,
    C7_cursor_requires_order_by "User" "id" (.int 5) "asc" 2 .mysql
      "`id` = 5" (Or.inl rfl) (by decide)⟩

/-- **C9.** The `LIMIT/OFFSET` pair computed by `Query::build`
(`src/query/mod.rs` lines 483-496): with `pageSize` and `pageNumber`
present the limit is `pageSize` and the offset `(pageNumber-1)*pageSize`;
otherwise with `skip`/`take` the limit is `take`'s absolute value and the
offset `skip`; and when `skip` is given without `take` the limit is the
sentinel `18446744073709551615` on MySQL and `9223372036854775806` on
PostgreSQL and SQLite. -/
theorem C9_limit_offset_modes (d : SQLDialect) :
    (∀ P N : Int, 0 ≤ P → P < 2 ^ 64 → 0 ≤ (N - 1) * P →
      (N - 1) * P < 2 ^ 64 →
      Query.build ⟨"User", [], [], []⟩
          (.dict [("pageSize", .int P), ("pageNumber", .int N)]) d
          none none none false
        = .ok ⟨none, SQLEscape.escape "User" d, none, none,
            some (P.toNat, ((N - 1) * P).toNat), none, none⟩) ∧
    (∀ sk t : Int, 0 ≤ sk → sk < 2 ^ 64 →
      ∃ stmt,
        Query.build ⟨"User", [], [], []⟩
            (.dict [("skip", .int sk), ("take", .int t)]) d
            none none none false
          = .ok stmt ∧
        stmt.limitOffset = some (t.natAbs, sk.toNat)) ∧
    (∀ sk : Int, 0 ≤ sk → sk < 2 ^ 64 →
      ∃ stmt,
        Query.build ⟨"User", [], [], []⟩ (.dict [("skip", .int sk)]) d
            none none none false
          = .ok stmt ∧
        stmt.limitOffset
          = some ((if d = SQLDialect.mysql then 18446744073709551615
              else 9223372036854775806), sk.toNat)) := by
  refine ⟨?_, ?_, ?_⟩
  · intro P N hP0 hP1 hNP0 hNP1
    rw [← u64ofInt_eq_toNat hP0 hP1, ← u64ofInt_eq_toNat hNP0 hNP1]
    rfl
  · intro sk t hsk0 hsk1
    have gt2 : (Value.dict [("skip", Value.int sk), ("take", Value.int t)]).get
        "take" = some (Value.int t) := rfl
    by_cases ht : t < 0
    · have hdec : decide (t < 0) = true := by simp [ht]
      refine ⟨⟨none, SQLEscape.escape "User" d, none, some "",
        some (t.natAbs, u64ofInt sk), none, none⟩, ?_, ?_⟩
      · simp only [Query.build, gt2, Value.asInt64, Option.map_some', hdec]
        rfl
      · rw [u64ofInt_eq_toNat hsk0 hsk1]
    · have hdec : decide (t < 0) = false := by simp [ht]
      refine ⟨⟨none, SQLEscape.escape "User" d, none, none,
        some (t.natAbs, u64ofInt sk), none, none⟩, ?_, ?_⟩
      · simp only [Query.build, gt2, Value.asInt64, Option.map_some', hdec]
        rfl
      · rw [u64ofInt_eq_toNat hsk0 hsk1]
  · intro sk hsk0 hsk1
    refine ⟨⟨none, SQLEscape.escape "User" d, none, none,
      some ((if d = SQLDialect.mysql then 18446744073709551615
        else 9223372036854775806), u64ofInt sk), none, none⟩, ?_, ?_⟩
    · rfl
    · rw [u64ofInt_eq_toNat hsk0 hsk1]

theorem C9_limit_offset_modes_witness :
    Query.build ⟨"User", [], [], []⟩
        (.dict [("pageSize", .int 10), ("pageNumber", .int 3)]) .mysql
        none none none false
      = .ok ⟨none, SQLEscape.escape "User" .mysql, none, none,
          some (10, 20), none, none⟩ :=
  (C9_limit_offset_modes .mysql).1 10 3 (by decide) (by decide) (by decide)
    (by decide)
